import Mathlib

set_option maxRecDepth 4000

/-!
Verification development for the threat-detection-explorer ingestion and
normalization pipeline.  Python sources are shallowly embedded: dictionaries
become association lists, machine-independent `int` arithmetic becomes
`Nat`/`Int`/`ℚ`, exceptions become `Option`, and the external YAML loader is
modelled by a `Yaml` value type.  Each embedded definition mirrors one
function of the repository, named after it.
-/

namespace TDE

/-! ## String helpers mirroring the Python string methods used by the code.
Strings are manipulated through their character lists so that every
operation is a plain structural recursion. -/

/-- Python `str.lower()` (the repository only lowercases ASCII data). -/
def pyLower (s : String) : String := String.mk (s.data.map Char.toLower)

/-- Python `str.upper()`. -/
def pyUpper (s : String) : String := String.mk (s.data.map Char.toUpper)

/-- Python `str.startswith(pat)`. -/
def pyStartsWith (s pat : String) : Bool := pat.data.isPrefixOf s.data

/-- Python `str.endswith(pat)`. -/
def pyEndsWith (s pat : String) : Bool := pat.data.isSuffixOf s.data

/-- Python `pat in s` (contiguous substring test). -/
def strContains (s pat : String) : Bool := decide (pat.data <:+: s.data)

/-- Replace every non-overlapping occurrence of `pat` (nonempty) by `rep`,
scanning left to right: the semantics of Python `str.replace`.  Structural
recursion on a fuel bounded by the list length (each step consumes at
least one character, so the fuel never runs out). -/
def replaceListAux (pat rep : List Char) : Nat → List Char → List Char
  | _, [] => []
  | 0, l => l
  | fuel + 1, c :: rest =>
    if pat ≠ [] ∧ pat.isPrefixOf (c :: rest) then
      rep ++ replaceListAux pat rep fuel ((c :: rest).drop pat.length)
    else
      c :: replaceListAux pat rep fuel rest

def replaceList (pat rep l : List Char) : List Char :=
  replaceListAux pat rep l.length l

/-- Python `str.replace(pat, rep)`. -/
def pyReplace (s pat rep : String) : String :=
  String.mk (replaceList pat.data rep.data s.data)

/-- Python `str.split(sep)` for a one-character separator. -/
def splitOnChar (sep : Char) : List Char → List (List Char)
  | [] => [[]]
  | c :: rest =>
    match splitOnChar sep rest with
    | [] => [[]]
    | grp :: rs => if c = sep then [] :: grp :: rs else (c :: grp) :: rs

/-- Order-preserving deduplication (first occurrence wins), the
`seen`-set idiom used throughout the repository. -/
def pyDedup (l : List String) : List String :=
  l.foldl (fun acc s => if s ∈ acc then acc else acc ++ [s]) []

/-- Add an element to a Python-`set` modelled as a duplicate-free list. -/
def addToSet (s : List String) (x : String) : List String :=
  if x ∈ s then s else s ++ [x]

/-- Code-point lexicographic order on character lists: the order Python's
string comparison (and hence `sorted`) uses. -/
def listLe : List Char → List Char → Bool
  | [], _ => true
  | _ :: _, [] => false
  | a :: as, b :: bs =>
    if a.toNat < b.toNat then true
    else if b.toNat < a.toNat then false
    else listLe as bs

/-- Python string `<=`. -/
def strLe (a b : String) : Bool := listLe a.data b.data

/-- Insert into an ascending list, keeping it ascending. -/
def insertSorted (x : String) : List String → List String
  | [] => [x]
  | y :: ys => if strLe x y then x :: y :: ys else y :: insertSorted x ys

/-- Python `sorted` on a list of strings (insertion sort; Python's sort is
stable, which is irrelevant here since we sort duplicate-free sets). -/
def sortStrings (l : List String) : List String := l.foldr insertSorted []

/-! ## MITRE ATT&CK resolver (`app/services/mitre.py`) -/

namespace Mitre

/-- Catalog entry for one technique, the value shape stored in
`MitreAttackService._techniques` (url and name fields irrelevant to
resolution are kept as `name` only). -/
structure TechniqueInfo where
  name : String
  tactics : List String
  deprecated : Bool
  revoked : Bool
deriving DecidableEq, Repr

/-- The in-memory technique catalog `MitreAttackService._techniques`:
a Python dict modelled as an association list from technique id to info. -/
def Catalog := List (String × TechniqueInfo)

instance : DecidableEq Catalog := by unfold Catalog; infer_instance

/-- Dict lookup `self._techniques.get(technique_id)`. -/
def lookupTech (cat : Catalog) (id : String) : Option TechniqueInfo :=
  List.lookup id cat

/-- The static `DEPRECATED_TECHNIQUE_MAPPING` table of `mitre.py`. -/
def DEPRECATED_TECHNIQUE_MAPPING : List (String × String) :=
  [("T1208", "T1558.003"), ("T1003", "T1003"), ("T1081", "T1552.001"),
   ("T1214", "T1552.002"), ("T1145", "T1552.004"), ("T1098", "T1098"),
   ("T1086", "T1059.001"), ("T1064", "T1059"), ("T1117", "T1218.011"),
   ("T1085", "T1218.011"), ("T1118", "T1218.004"), ("T1121", "T1218.009"),
   ("T1127", "T1127"), ("T1170", "T1218.005"), ("T1191", "T1218.003"),
   ("T1028", "T1021.006"), ("T1100", "T1505.003"), ("T1077", "T1021.002"),
   ("T1076", "T1021.001"), ("T1128", "T1546.011"), ("T1050", "T1543.003"),
   ("T1031", "T1543.003"), ("T1060", "T1547.001"), ("T1004", "T1547.004"),
   ("T1058", "T1574.011"), ("T1034", "T1574.007"), ("T1038", "T1574.001"),
   ("T1044", "T1574.010"), ("T1088", "T1548.002"), ("T1055", "T1055"),
   ("T1108", "T1078"), ("T1089", "T1562.001"), ("T1116", "T1036.001"),
   ("T1107", "T1070.004"), ("T1066", "T1027"), ("T1035", "T1569.002"),
   ("T1053", "T1053"), ("T1002", "T1560"), ("T1022", "T1560.001")]

/-- `MitreAttackService.is_valid_technique`: known and neither deprecated
nor revoked. -/
def is_valid_technique (cat : Catalog) (id : String) : Bool :=
  match lookupTech cat id with
  | none => false
  | some t => !t.deprecated && !t.revoked

/-- `MitreAttackService.map_technique`. -/
def map_technique (cat : Catalog) (id : String) : Option String :=
  if is_valid_technique cat id then some id
  else
    match List.lookup id DEPRECATED_TECHNIQUE_MAPPING with
    | some mapped =>
      if is_valid_technique cat mapped then some mapped
      else if (lookupTech cat id).isSome then some id
      else none
    | none =>
      if (lookupTech cat id).isSome then some id
      else none

/-- Tactic list of a technique id (`technique.get("tactics", [])`,
empty when the id is unknown). -/
def tacticsOfId (cat : Catalog) (id : String) : List String :=
  match lookupTech cat id with
  | some t => t.tactics
  | none => []

/-- Python `"." in tech_id`. -/
def hasSep (id : String) : Bool := id.data.contains '.'

/-- Python `tech_id.split(".")[0]`. -/
def parentOf (id : String) : String :=
  String.mk ((splitOnChar '.' id.data).headD id.data)

/-- Per-technique contribution inside the loop body of
`get_tactics_for_techniques`: the tactics of the (possibly remapped) id,
followed by the parent's tactics when the remapped id contains a dot. -/
def tacticContribution (cat : Catalog) (id : String) : List String :=
  let tid := (map_technique cat id).getD id
  tacticsOfId cat tid ++ (if hasSep tid then tacticsOfId cat (parentOf tid) else [])

/-- `MitreAttackService.get_tactics_for_techniques`: union into a set,
then `sorted(...)`. -/
def get_tactics_for_techniques (cat : Catalog) (ids : List String) : List String :=
  let tset := ids.foldl (fun acc id => (tacticContribution cat id).foldl addToSet acc) []
  sortStrings tset

end Mitre

/-! ## SHA-256 (the `hashlib.sha256(...).hexdigest()` call used by
`BaseNormalizer.generate_id`), implemented over `Nat` with explicit
reduction modulo `2 ^ 32`. -/

namespace SHA256

def w32 : Nat := 2 ^ 32

def add32 (a b : Nat) : Nat := (a + b) % w32

def rotr (x n : Nat) : Nat := ((x >>> n) ||| (x <<< (32 - n))) % w32

def shr (x n : Nat) : Nat := x >>> n

def bnot32 (x : Nat) : Nat := Nat.xor x (w32 - 1)

def smallSigma0 (x : Nat) : Nat := Nat.xor (Nat.xor (rotr x 7) (rotr x 18)) (shr x 3)

def smallSigma1 (x : Nat) : Nat := Nat.xor (Nat.xor (rotr x 17) (rotr x 19)) (shr x 10)

def bigSigma0 (x : Nat) : Nat := Nat.xor (Nat.xor (rotr x 2) (rotr x 13)) (rotr x 22)

def bigSigma1 (x : Nat) : Nat := Nat.xor (Nat.xor (rotr x 6) (rotr x 11)) (rotr x 25)

def chFn (x y z : Nat) : Nat := Nat.xor (Nat.land x y) (Nat.land (bnot32 x) z)

def majFn (x y z : Nat) : Nat :=
  Nat.xor (Nat.xor (Nat.land x y) (Nat.land x z)) (Nat.land y z)

/-- The 64 round constants (FIPS 180-4, written in decimal). -/
def K : List Nat :=
  [1116352408, 1899447441, 3049323471, 3921009573, 961987163,
   1508970993, 2453635748, 2870763221, 3624381080, 310598401,
   607225278, 1426881987, 1925078388, 2162078206, 2614888103,
   3248222580, 3835390401, 4022224774, 264347078, 604807628,
   770255983, 1249150122, 1555081692, 1996064986, 2554220882,
   2821834349, 2952996808, 3210313671, 3336571891, 3584528711,
   113926993, 338241895, 666307205, 773529912, 1294757372,
   1396182291, 1695183700, 1986661051, 2177026350, 2456956037,
   2730485921, 2820302411, 3259730800, 3345764771, 3516065817,
   3600352804, 4094571909, 275423344, 430227734, 506948616,
   659060556, 883997877, 958139571, 1322822218, 1537002063,
   1747873779, 1955562222, 2024104815, 2227730452, 2361852424,
   2428436474, 2756734187, 3204031479, 3329325298]

/-- Working state of the compression function. -/
structure Hash8 where
  a : Nat
  b : Nat
  c : Nat
  d : Nat
  e : Nat
  f : Nat
  g : Nat
  h : Nat
deriving Repr, DecidableEq

/-- Initial hash value (FIPS 180-4, written in decimal). -/
def H0 : Hash8 :=
  ⟨1779033703, 3144134277, 1013904242, 2773480762,
   1359893119, 2600822924, 528734635, 1541459225⟩

/-- One round of the compression function. -/
def round (s : Hash8) (k w : Nat) : Hash8 :=
  let t1 := add32 (add32 (add32 s.h (bigSigma1 s.e)) (add32 (chFn s.e s.f s.g) k)) w
  let t2 := add32 (bigSigma0 s.a) (majFn s.a s.b s.c)
  ⟨add32 t1 t2, s.a, s.b, s.c, add32 s.d t1, s.e, s.f, s.g⟩

/-- Extend the 16 message words of a block to the 64-entry schedule. -/
def schedule (block : List Nat) : List Nat :=
  (List.range 48).foldl
    (fun w i =>
      let x := add32
        (add32 (smallSigma1 (w.getD (i + 14) 0)) (w.getD (i + 9) 0))
        (add32 (smallSigma0 (w.getD (i + 1) 0)) (w.getD i 0))
      w ++ [x])
    block

/-- Compress one 16-word block into the running hash. -/
def compressBlock (s : Hash8) (block : List Nat) : Hash8 :=
  let ws := schedule block
  let t := (List.zip K ws).foldl (fun st kw => round st kw.1 kw.2) s
  ⟨add32 s.a t.a, add32 s.b t.b, add32 s.c t.c, add32 s.d t.d,
   add32 s.e t.e, add32 s.f t.f, add32 s.g t.g, add32 s.h t.h⟩

/-- Big-endian byte expansion of `n` on `k` bytes. -/
def toBytesBE (n : Nat) : Nat → List Nat
  | 0 => []
  | k + 1 => toBytesBE (n / 256) k ++ [n % 256]

/-- Split a list into chunks of `n` (the final chunk may be short;
the inputs we use are exact multiples). -/
def chunksOf : Nat → List α → List (List α)
  | _, [] => []
  | 0, _ :: _ => []
  | n + 1, a :: l => (a :: l).take (n + 1) :: chunksOf (n + 1) ((a :: l).drop (n + 1))
termination_by _ l => l.length
decreasing_by
  simp only [List.drop_succ_cons, List.length_drop, List.length_cons]
  omega

/-- Pack four big-endian bytes into one 32-bit word. -/
def packWord (bytes : List Nat) : Nat := bytes.foldl (fun acc b => acc * 256 + b) 0

/-- SHA-256 padding: `0x80`, zeros to 56 mod 64, then the 64-bit
big-endian bit length. -/
def padMessage (msg : List Nat) : List Nat :=
  let len := msg.length
  let zeros := (120 - ((len + 1) % 64)) % 64
  msg ++ [0x80] ++ List.replicate zeros 0 ++ toBytesBE (len * 8) 8

/-- The eight 32-bit words of the SHA-256 digest of a byte string. -/
def sha256Words (msg : List Nat) : Hash8 :=
  let blocks := chunksOf 16 ((chunksOf 4 (padMessage msg)).map packWord)
  blocks.foldl compressBlock H0

def hexDigitChars : List Char := "0123456789abcdef".data

/-- Fixed-width lowercase hexadecimal rendering (`k` digits, big-endian). -/
def toHexN (n : Nat) : Nat → List Char
  | 0 => []
  | k + 1 => toHexN (n / 16) k ++ [hexDigitChars.getD (n % 16) '0']

/-- The 64 characters of `hashlib.sha256(msg).hexdigest()`. -/
def sha256HexChars (msg : List Nat) : List Char :=
  let s := sha256Words msg
  toHexN s.a 8 ++ toHexN s.b 8 ++ toHexN s.c 8 ++ toHexN s.d 8 ++
  toHexN s.e 8 ++ toHexN s.f 8 ++ toHexN s.g 8 ++ toHexN s.h 8

/-- UTF-8 encoding of one character (Python `str.encode()`). -/
def utf8EncodeChar (c : Char) : List Nat :=
  let n := c.toNat
  if n < 0x80 then [n]
  else if n < 0x800 then
    [0xC0 ||| (n >>> 6), 0x80 ||| (n &&& 0x3F)]
  else if n < 0x10000 then
    [0xE0 ||| (n >>> 12), 0x80 ||| ((n >>> 6) &&& 0x3F), 0x80 ||| (n &&& 0x3F)]
  else
    [0xF0 ||| (n >>> 18), 0x80 ||| ((n >>> 12) &&& 0x3F),
     0x80 ||| ((n >>> 6) &&& 0x3F), 0x80 ||| (n &&& 0x3F)]

/-- UTF-8 bytes of a string. -/
def utf8Bytes (s : String) : List Nat := s.data.flatMap utf8EncodeChar

end SHA256

/-! ## Base normalizer shared helpers (`app/normalizers/base.py`) -/

namespace Normalizer

/-- The hash input `f"{source}:{file_path}"` of `BaseNormalizer.generate_id`. -/
def hashInput (source file_path : String) : String := source ++ ":" ++ file_path

/-- `BaseNormalizer.generate_id`: SHA-256 of `source:file_path`, hex slices
`[:8], [8:12], [12:16], [16:20], [20:32]` joined by dashes. -/
def generate_id (source file_path : String) : String :=
  let h := SHA256.sha256HexChars (SHA256.utf8Bytes (hashInput source file_path))
  String.mk (h.take 8) ++ "-" ++ String.mk ((h.drop 8).take 4) ++ "-" ++
  String.mk ((h.drop 12).take 4) ++ "-" ++ String.mk ((h.drop 16).take 4) ++ "-" ++
  String.mk ((h.drop 20).take 12)

/-- `BaseNormalizer.normalize_status`.  `none` models Python `None`; the
empty string is falsy, so both hit the `if not status` branch. -/
def normalize_status (status : Option String) : String :=
  match status with
  | none => "unknown"
  | some s =>
    if s = "" then "unknown"
    else
      let l := pyLower s
      if l ∈ ["stable", "production", "released"] then "stable"
      else if l ∈ ["experimental", "test", "testing", "development", "dev"] then "experimental"
      else if l ∈ ["deprecated", "obsolete", "retired"] then "deprecated"
      else "unknown"

/-- `BaseNormalizer.normalize_severity`. -/
def normalize_severity (severity : Option String) : String :=
  match severity with
  | none => "unknown"
  | some s =>
    if s = "" then "unknown"
    else
      let l := pyLower s
      if l ∈ ["informational", "info", "low"] then "low"
      else if l ∈ ["medium", "moderate"] then "medium"
      else if l ∈ ["high"] then "high"
      else if l ∈ ["critical", "severe"] then "critical"
      else "unknown"

end Normalizer

/-! ## Log source taxonomy (`app/services/log_source_taxonomy.py`) -/

namespace Taxonomy

structure PlatformInfo where
  display_name : String
  category : String
  keywords : List String
deriving DecidableEq, Repr

/-- The `PLATFORMS` table, in source order (a Python dict preserves
insertion order). -/
def PLATFORMS : List (String × PlatformInfo) :=
  [("windows", ⟨"Windows", "endpoint",
    ["windows", "win", "winlogbeat", "sysmon", "microsoft-windows",
     "powershell", "cmd", "wmi", "msiexec", "certutil", "regsvr32",
     "wscript", "cscript", "mshta", "rundll32", "bits"]⟩),
   ("linux", ⟨"Linux", "endpoint",
    ["linux", "unix", "auditd", "syslog", "systemd", "journald",
     "bash", "cron", "ssh", "sudo", "apt", "yum", "rpm", "deb",
     "iptables", "selinux", "apparmor"]⟩),
   ("macos", ⟨"macOS", "endpoint",
    ["macos", "mac", "osx", "apple", "darwin", "unified_log",
     "launchd", "spotlight", "gatekeeper", "xprotect"]⟩),
   ("aws", ⟨"AWS", "cloud",
    ["aws", "amazon", "cloudtrail", "cloudwatch", "guardduty",
     "s3", "ec2", "iam", "lambda", "eks", "ecs", "rds", "vpc"]⟩),
   ("azure", ⟨"Azure", "cloud",
    ["azure", "microsoft-azure", "azure_activity", "azure_monitor",
     "azure_sentinel", "entra", "aad", "azure_ad", "azure_storage",
     "azure_vm", "azure_keyvault", "azure_network"]⟩),
   ("gcp", ⟨"Google Cloud", "cloud",
    ["gcp", "google_cloud", "google-cloud", "gcp_audit",
     "gce", "gke", "bigquery", "gcs", "cloud_functions"]⟩),
   ("microsoft_365", ⟨"Microsoft 365", "saas",
    ["o365", "office365", "m365", "microsoft_365", "microsoft365",
     "sharepoint", "onedrive", "teams", "exchange_online",
     "defender_365", "microsoft_defender"]⟩),
   ("okta", ⟨"Okta", "saas",
    ["okta", "okta_system", "okta_auth", "okta_sso"]⟩),
   ("google_workspace", ⟨"Google Workspace", "saas",
    ["google_workspace", "gsuite", "g_suite", "gmail", "google_drive",
     "google_admin", "google_meet"]⟩),
   ("duo", ⟨"Cisco Duo", "saas",
    ["duo", "cisco_duo", "duo_security", "duo_mfa"]⟩),
   ("onelogin", ⟨"OneLogin", "saas",
    ["onelogin", "one_login"]⟩),
   ("auth0", ⟨"Auth0", "saas",
    ["auth0"]⟩),
   ("github", ⟨"GitHub", "saas",
    ["github", "github_audit", "github_actions"]⟩),
   ("salesforce", ⟨"Salesforce", "saas",
    ["salesforce", "sfdc"]⟩),
   ("slack", ⟨"Slack", "saas",
    ["slack", "slack_audit"]⟩),
   ("zoom", ⟨"Zoom", "saas",
    ["zoom", "zoom_meeting"]⟩),
   ("palo_alto", ⟨"Palo Alto", "network",
    ["paloalto", "palo_alto", "pan", "pan-os", "panw",
     "palo_alto_networks", "prisma"]⟩),
   ("fortigate", ⟨"FortiGate", "network",
    ["fortinet", "fortigate", "forti", "fortios", "fortianalyzer"]⟩),
   ("cisco_asa", ⟨"Cisco ASA", "network",
    ["cisco_asa", "asa", "cisco_firewall", "cisco_ftd"]⟩),
   ("checkpoint", ⟨"Check Point", "network",
    ["checkpoint", "check_point", "smartconsole"]⟩),
   ("zscaler", ⟨"Zscaler", "network",
    ["zscaler", "zia", "zpa", "zscaler_internet_access"]⟩),
   ("cisco_umbrella", ⟨"Cisco Umbrella", "network",
    ["umbrella", "cisco_umbrella", "opendns"]⟩),
   ("bluecoat", ⟨"Symantec ProxySG", "network",
    ["bluecoat", "proxysg", "symantec_proxy"]⟩),
   ("suricata", ⟨"Suricata", "network",
    ["suricata", "suricata_ids"]⟩),
   ("snort", ⟨"Snort", "network",
    ["snort", "snort_ids"]⟩),
   ("zeek", ⟨"Zeek", "network",
    ["zeek", "bro", "zeek_logs"]⟩),
   ("exchange", ⟨"Microsoft Exchange", "email",
    ["exchange", "microsoft_exchange", "exchange_server",
     "exchange_online", "owa"]⟩),
   ("proofpoint", ⟨"Proofpoint", "email",
    ["proofpoint", "proofpoint_tap", "proofpoint_pod"]⟩),
   ("mimecast", ⟨"Mimecast", "email",
    ["mimecast"]⟩),
   ("crowdstrike", ⟨"CrowdStrike", "edr",
    ["crowdstrike", "falcon", "cs_falcon", "crowdstrike_falcon"]⟩),
   ("defender_endpoint", ⟨"Defender for Endpoint", "edr",
    ["mde", "wdatp", "defender", "microsoft_defender",
     "defender_for_endpoint", "microsoft_defender_endpoint"]⟩),
   ("sentinelone", ⟨"SentinelOne", "edr",
    ["sentinelone", "s1", "sentinel_one"]⟩),
   ("carbon_black", ⟨"Carbon Black", "edr",
    ["carbon_black", "carbonblack", "cb", "vmware_carbon_black"]⟩),
   ("kubernetes", ⟨"Kubernetes", "container",
    ["kubernetes", "k8s", "kubectl", "kube", "eks", "aks", "gke"]⟩),
   ("docker", ⟨"Docker", "container",
    ["docker", "container", "containerd"]⟩)]

structure EventCategoryInfo where
  display_name : String
  description : String
  keywords : List String
deriving DecidableEq, Repr

/-- The `EVENT_CATEGORIES` table, in source order. -/
def EVENT_CATEGORIES : List (String × EventCategoryInfo) :=
  [("process", ⟨"Process Activity",
    "Process creation, termination, and injection events",
    ["process_creation", "process_access", "process_termination",
     "process_start", "process_stop", "create_process",
     "image_load", "driver_load", "process_injection",
     "create_remote_thread", "sysmon_event_1", "sysmon_event_7",
     "sysmon_event_8", "eventid_4688"]⟩),
   ("file", ⟨"File Activity",
    "File creation, modification, deletion, and access events",
    ["file_event", "file_creation", "file_modification", "file_delete",
     "file_access", "file_change", "file_rename", "file_write",
     "file_read", "file_open", "sysmon_event_11", "sysmon_event_23",
     "create_stream_hash", "alternate_data_stream"]⟩),
   ("network_connection", ⟨"Network Connections",
    "TCP/UDP connections, socket operations",
    ["network_connection", "socket", "tcp", "udp",
     "sysmon_event_3", "connection_attempt", "established_connection"]⟩),
   ("dns", ⟨"DNS Activity",
    "DNS queries, responses, and resolution events",
    ["dns_query", "dns_event", "dns_request", "dns_response",
     "sysmon_event_22", "dns_lookup", "name_resolution"]⟩),
   ("http", ⟨"Web/HTTP Traffic",
    "HTTP requests, web traffic, proxy logs",
    ["http", "https", "web", "proxy", "web_proxy", "url",
     "user_agent", "web_request"]⟩),
   ("firewall", ⟨"Firewall Events",
    "Firewall allow/deny, traffic flow events",
    ["firewall", "fw", "firewall_allow", "firewall_deny",
     "traffic_flow", "blocked", "permitted"]⟩),
   ("registry", ⟨"Registry Activity",
    "Windows registry key and value modifications",
    ["registry_event", "registry_add", "registry_delete", "registry_set",
     "registry_value", "registry_key", "sysmon_event_12",
     "sysmon_event_13", "sysmon_event_14", "regkey", "regvalue"]⟩),
   ("authentication", ⟨"Authentication",
    "Login, logout, MFA, and credential events",
    ["logon", "logoff", "authentication", "failed_logon", "login",
     "logout", "credential", "session", "token", "kerberos",
     "ntlm", "ldap_bind", "mfa", "password", "eventid_4624",
     "eventid_4625", "eventid_4648"]⟩),
   ("api_activity", ⟨"API Activity",
    "Cloud API calls, management operations",
    ["api", "api_call", "management_event", "control_plane",
     "admin_activity", "cloudtrail", "audit_log"]⟩),
   ("email", ⟨"Email Events",
    "Email send, receive, attachments, link clicks",
    ["email", "mail", "smtp", "message_trace", "email_received",
     "email_sent", "attachment", "phishing", "spam"]⟩),
   ("identity_management", ⟨"Identity Management",
    "User/group creation, role changes, permissions",
    ["user_created", "user_deleted", "group_membership",
     "role_assignment", "permission_change", "privilege_change",
     "identity", "iam"]⟩),
   ("configuration_change", ⟨"Configuration Changes",
    "System, application, and policy configuration changes",
    ["config_change", "policy_change", "setting_change",
     "configuration", "audit_policy", "system_config"]⟩),
   ("scheduled_task", ⟨"Scheduled Tasks",
    "Scheduled task and cron job events",
    ["scheduled_task", "cron", "at_job", "task_scheduler",
     "schtasks", "launchd"]⟩),
   ("service", ⟨"Service Events",
    "Service installation, start, stop events",
    ["service_install", "service_start", "service_stop",
     "service_created", "sysmon_event_6", "systemd_service"]⟩),
   ("pipe", ⟨"Named Pipes",
    "Named pipe creation and connection events",
    ["pipe_created", "pipe_connected", "named_pipe",
     "sysmon_event_17", "sysmon_event_18"]⟩),
   ("wmi", ⟨"WMI Events",
    "WMI activity and event subscriptions",
    ["wmi", "wmi_event", "sysmon_event_19", "sysmon_event_20",
     "sysmon_event_21", "wmi_filter", "wmi_consumer"]⟩)]

structure DataSourceInfo where
  platform : String
  categories : List String
  display_name : String
deriving DecidableEq, Repr

/-- The `DATA_SOURCES` table, in source order. -/
def DATA_SOURCES : List (String × DataSourceInfo) :=
  [("sysmon", ⟨"windows",
    ["process", "file", "network_connection", "dns", "registry", "pipe", "wmi"],
    "Sysmon"⟩),
   ("security", ⟨"windows",
    ["authentication", "process", "identity_management"],
    "Windows Security Log"⟩),
   ("powershell", ⟨"windows", ["process"], "PowerShell"⟩),
   ("winlogbeat", ⟨"windows",
    ["process", "authentication", "file"], "Winlogbeat"⟩),
   ("auditd", ⟨"linux",
    ["process", "file", "authentication"], "Linux Auditd"⟩),
   ("syslog", ⟨"linux",
    ["authentication", "process", "network_connection"], "Syslog"⟩),
   ("cloudtrail", ⟨"aws",
    ["api_activity", "authentication", "identity_management"],
    "AWS CloudTrail"⟩),
   ("azure_activity", ⟨"azure",
    ["api_activity", "authentication", "identity_management"],
    "Azure Activity Log"⟩),
   ("gcp_audit", ⟨"gcp",
    ["api_activity", "authentication"], "GCP Audit Logs"⟩),
   ("zeek_conn", ⟨"zeek", ["network_connection"], "Zeek Connection Logs"⟩),
   ("zeek_dns", ⟨"zeek", ["dns"], "Zeek DNS Logs"⟩),
   ("zeek_http", ⟨"zeek", ["http"], "Zeek HTTP Logs"⟩)]

/-- Insert into a Python dict modelled as an association list: overwriting
an existing key keeps its position, a new key is appended. -/
def dinsert (d : List (String × String)) (k v : String) : List (String × String) :=
  if d.any (fun p => p.1 == k) then
    d.map (fun p => if p.1 == k then (k, v) else p)
  else d ++ [(k, v)]

/-- Dict `get` / `in` on the association lists built by `dinsert`. -/
def dlookup (d : List (String × String)) (k : String) : Option String :=
  (d.find? (fun p => p.1 == k)).map (fun p => p.2)

/-- Build a reverse `keyword.lower() -> id` map from a keyword table
(the module-level loops building `PLATFORM_KEYWORD_MAP` /
`EVENT_CATEGORY_KEYWORD_MAP`). -/
def buildKeywordMap (entries : List (String × List String)) : List (String × String) :=
  entries.foldl (fun m e => e.2.foldl (fun m kw => dinsert m (pyLower kw) e.1) m) []

def PLATFORM_KEYWORD_MAP : List (String × String) :=
  buildKeywordMap (PLATFORMS.map (fun p => (p.1, p.2.keywords)))

def EVENT_CATEGORY_KEYWORD_MAP : List (String × String) :=
  buildKeywordMap (EVENT_CATEGORIES.map (fun p => (p.1, p.2.keywords)))

/-- Python `max(scores, key=scores.get)` over a dict in insertion order:
the first key attaining the maximum value (later entries replace only on
strictly greater). -/
def pyArgmax : List (String × Nat) → Option String
  | [] => none
  | x :: xs => some ((xs.foldl (fun best y => if y.2 > best.2 then y else best) x).1)

/-- Keyword-count scores for one dimension (only positive scores are
entered into the dict, in table order). -/
def keywordScores (entries : List (String × List String)) (search_text : String) :
    List (String × Nat) :=
  entries.filterMap (fun e =>
    let sc := e.2.countP (fun kw => strContains search_text kw)
    if sc > 0 then some (e.1, sc) else none)

/-- Product-hint stage of `_detect_platform` (the first early return). -/
def platformFromProduct (product : Option String) : Option String :=
  match product with
  | some p =>
    if p ≠ "" then
      let pl := pyReplace (pyReplace (pyLower p) "-" "_") " " "_"
      match dlookup PLATFORM_KEYWORD_MAP pl with
      | some plat => some plat
      | none => if (PLATFORMS.find? (fun q => q.1 == pl)).isSome then some pl else none
    else none
  | none => none

/-- Service-hint stage of `_detect_platform`. -/
def platformFromService (service : Option String) : Option String :=
  match service with
  | some s =>
    if s ≠ "" then
      ((DATA_SOURCES.find? (fun q => q.1 == pyLower s)).map (fun q => q.2.platform))
    else none
  | none => none

/-- Index-pattern stage of `_detect_platform`. -/
def platformFromPatterns (index_patterns : Option (List String)) : Option String :=
  (index_patterns.getD []).findSome? (fun pat =>
    PLATFORM_KEYWORD_MAP.findSome? (fun kv =>
      if strContains (pyLower pat) kv.1 then some kv.2 else none))

/-- Keyword-score stage of `_detect_platform`. -/
def platformFromScores (search_text : String) : Option String :=
  pyArgmax (keywordScores (PLATFORMS.map (fun p => (p.1, p.2.keywords))) search_text)

/-- `_detect_platform`: the four stages in early-return order. -/
def detect_platform (search_text : String) (product service : Option String)
    (index_patterns : Option (List String)) : String :=
  ((platformFromProduct product <|> platformFromService service) <|>
   (platformFromPatterns index_patterns <|> platformFromScores search_text)).getD ""

/-- Category-hint stage of `_detect_event_category`. -/
def categoryFromHint (category : Option String) : Option String :=
  match category with
  | some c =>
    if c ≠ "" then
      let cl := pyReplace (pyReplace (pyLower c) "-" "_") " " "_"
      match dlookup EVENT_CATEGORY_KEYWORD_MAP cl with
      | some cat => some cat
      | none => if (EVENT_CATEGORIES.find? (fun q => q.1 == cl)).isSome then some cl else none
    else none
  | none => none

/-- Keyword-score stage of `_detect_event_category`. -/
def categoryFromScores (search_text : String) : Option String :=
  pyArgmax (keywordScores (EVENT_CATEGORIES.map (fun p => (p.1, p.2.keywords))) search_text)

/-- `_detect_event_category`. -/
def detect_event_category (search_text : String) (category : Option String) : String :=
  (categoryFromHint category <|> categoryFromScores search_text).getD ""

/-- Service stage of `_detect_data_source`. -/
def dataSourceFromService (service : Option String) : Option String :=
  match service with
  | some s =>
    if s ≠ "" then
      if (DATA_SOURCES.find? (fun q => q.1 == pyLower s)).isSome then some (pyLower s)
      else none
    else none
  | none => none

/-- Index-pattern stage of `_detect_data_source`. -/
def dataSourceFromPatterns (index_patterns : Option (List String)) : Option String :=
  (index_patterns.getD []).findSome? (fun pat =>
    DATA_SOURCES.findSome? (fun kv =>
      if strContains (pyLower pat) kv.1 then some kv.1 else none))

/-- Search-text stage of `_detect_data_source`. -/
def dataSourceFromText (search_text : String) : Option String :=
  DATA_SOURCES.findSome? (fun kv =>
    if strContains search_text kv.1 then some kv.1 else none)

/-- `_detect_data_source`. -/
def detect_data_source (search_text : String) (service : Option String)
    (index_patterns : Option (List String)) : String :=
  ((dataSourceFromService service <|> dataSourceFromPatterns index_patterns) <|>
   dataSourceFromText search_text).getD ""

/-- `standardize_log_sources`. -/
def standardize_log_sources (log_sources : List String)
    (product category service : Option String)
    (index_patterns : Option (List String)) : String × String × String :=
  let search_parts := [String.intercalate " " log_sources, product.getD "",
                       category.getD "", service.getD "",
                       String.intercalate " " (index_patterns.getD [])]
  let search_text := pyLower (String.intercalate " " search_parts)
  (detect_platform search_text product service index_patterns,
   detect_event_category search_text category,
   detect_data_source search_text service index_patterns)

end Taxonomy

/-! ## Splunk severity derivation (`SplunkParser._derive_severity`) -/

namespace Splunk

/-- Input shape of `_derive_severity`.  `riskScores` holds the `score`
entry of each element of `rba.risk_objects` (`none` when the entry is not
a dict, has no score, or its score does not coerce to `int`).  `impact`
and `confidence` are `tags.get("impact")` / `tags.get("confidence")`,
`none` when the field is absent, falsy, or fails `int(...)`.
`riskSeverity` is `tags.get("risk_severity")`, `none` when absent or
falsy. -/
structure SeverityInput where
  riskScores : List (Option Int)
  impact : Option Int
  confidence : Option Int
  riskSeverity : Option String
deriving DecidableEq, Repr

/-- The `max_score` accumulation loop (starts at 0, keeps strictly
greater scores). -/
def maxScore (scores : List (Option Int)) : Int :=
  scores.foldl (fun m s? => match s? with
    | some s => if s > m then s else m
    | none => m) 0

/-- `SplunkParser._derive_severity`. -/
def derive_severity (inp : SeverityInput) : String :=
  let fromTags : String :=
    match inp.impact, inp.confidence with
    | some i, some c =>
      let avg : ℚ := (i + c : ℚ) / 2
      if avg ≥ 80 then "critical"
      else if avg ≥ 60 then "high"
      else if avg ≥ 40 then "medium"
      else "low"
    | _, _ =>
      match inp.riskSeverity with
      | some rs => pyLower rs
      | none => "unknown"
  if inp.riskScores.isEmpty then fromTags
  else
    let m := maxScore inp.riskScores
    if m > 0 then
      if m ≥ 80 then "critical"
      else if m ≥ 60 then "high"
      else if m ≥ 40 then "medium"
      else "low"
    else fromTags

end Splunk

/-! ## Ingestion orchestrator (`app/services/ingestion.py` and
`app/services/ingestion_errors.py`) -/

namespace Ingest

inductive Stage where
  | discovery
  | read
  | parse
  | normalize
  | store
deriving DecidableEq, Repr

inductive Severity where
  | warning
  | error
deriving DecidableEq, Repr

/-- One `IngestionError` (timestamp and free-form details omitted). -/
structure ErrRec where
  file_path : String
  stage : Stage
  severity : Severity
  message : String
deriving DecidableEq, Repr

/-- The counters and error list of `IngestionStats`. -/
structure Stats where
  discovered : Nat := 0
  skipped_by_filter : Nat := 0
  parsed : Nat := 0
  normalized : Nat := 0
  stored : Nat := 0
  errors : List ErrRec := []
deriving DecidableEq, Repr

/-- `IngestionStats.add_error`. -/
def Stats.add_error (s : Stats) (path : String) (stage : Stage) (msg : String)
    (sev : Severity) : Stats :=
  { s with errors := s.errors ++ [⟨path, stage, sev, msg⟩] }

/-- Number of recorded errors at a given stage (one bucket of
`get_errors_by_stage`). -/
def Stats.stageCount (s : Stats) (g : Stage) : Nat :=
  (s.errors.filter (fun e => e.stage = g)).length

/-- `IngestionStats.error_count`. -/
def Stats.error_count (s : Stats) : Nat :=
  (s.errors.filter (fun e => e.severity = Severity.error)).length

/-- `IngestionStats.warning_count`. -/
def Stats.warning_count (s : Stats) : Nat :=
  (s.errors.filter (fun e => e.severity = Severity.warning)).length

/-- Outcome of `normalizer.normalize(parsed)` for one file: an unexpected
exception, or a normalized record identified by its id. -/
inductive NormOutcome where
  | exc
  | ok (ruleId : String)
deriving DecidableEq, Repr

/-- Outcome of `parser.parse(path, content)` for one file: `None`
(missing required fields / invalid format), an unexpected exception, or a
parsed rule together with what normalization then does to it. -/
inductive ParseOutcome where
  | retNone
  | exc
  | ok (norm : NormOutcome)
deriving DecidableEq, Repr

/-- One discovered file, with the responses of the external collaborators
for it: `readResult` is `discovery.get_rule_content` (`none` = content
unavailable), `canParse` is `parser.can_parse` on the full path, and
`parseOutcome` describes the parse/normalize behaviour on its content. -/
structure FileJob where
  path : String
  readResult : Option String
  canParse : Bool
  parseOutcome : ParseOutcome
deriving DecidableEq, Repr

/-- Whether the parser fails on this file (returns `None` or raises). -/
def FileJob.parseFailed (j : FileJob) : Bool :=
  match j.parseOutcome with
  | ParseOutcome.retNone => true
  | ParseOutcome.exc => true
  | _ => false

/-- Whether the file parses and normalizes successfully. -/
def FileJob.pipelineOk (j : FileJob) : Bool :=
  match j.parseOutcome with
  | ParseOutcome.ok (NormOutcome.ok _) => true
  | _ => false

/-- Database oracle: whether a batch commit succeeds, and whether the
per-record fallback commit succeeds for one record. -/
structure Db where
  batchCommitOk : List String → Bool
  singleCommitOk : String → Bool

/-- `IngestionService._store_rules_safe`: the add-loop cannot fail in this
model, so the batch path stores every rule; on batch-commit failure, rules
are committed one at a time and each individual failure records a
STORE-stage error.  Returns (number stored, recorded errors). -/
def store_rules_safe (db : Db) (rules : List String) : Nat × List ErrRec :=
  if db.batchCommitOk rules then (rules.length, [])
  else
    rules.foldl
      (fun acc r =>
        if db.singleCommitOk r then (acc.1 + 1, acc.2)
        else (acc.1, acc.2 ++ [⟨r, Stage.store, Severity.error, "Individual store failed"⟩]))
      (0, [])

/-- Events of one file's processing, in the order the orchestrator's loop
body performs them. -/
inductive Event where
  | discovered (path : String)
  | readAttempt (path : String)
  | readContent (path : String)
  | readErrorRecorded (path : String)
  | skippedByFilter (path : String)
  | parseAttempt (path : String)
deriving DecidableEq, Repr

/-- Mid-run orchestrator state: the statistics and the batch buffer
`rules_to_store` (each buffered record named by its id). -/
structure RunState where
  stats : Stats := {}
  buffer : List String := []
deriving Repr

def batch_size : Nat := 100

/-- Flush the buffer through `_store_rules_safe` when it reached
`batch_size`. -/
def flushIfFull (db : Db) (st : RunState) : RunState :=
  if st.buffer.length ≥ batch_size then
    let r := store_rules_safe db st.buffer
    { stats := { st.stats with
        stored := st.stats.stored + r.1
        errors := st.stats.errors ++ r.2 }
      buffer := [] }
  else st

/-- The loop body of `IngestionService.ingest_repository` for one
discovered file, returning the new state and the trace of events in the
order the code performs them.  Note the source reads the file content
(`get_rule_content`) before it checks `parser.can_parse`. -/
def processFile (db : Db) (st : RunState) (job : FileJob) : RunState × List Event :=
  let stats := { st.stats with discovered := st.stats.discovered + 1 }
  match job.readResult with
  | none =>
    let stats := stats.add_error job.path Stage.read "Failed to read file content" Severity.error
    ({ st with stats := stats },
     [Event.discovered job.path, Event.readAttempt job.path,
      Event.readErrorRecorded job.path])
  | some _ =>
    let evs := [Event.discovered job.path, Event.readAttempt job.path,
                Event.readContent job.path]
    if !job.canParse then
      ({ st with stats := { stats with skipped_by_filter := stats.skipped_by_filter + 1 } },
       evs ++ [Event.skippedByFilter job.path])
    else
      match job.parseOutcome with
      | ParseOutcome.retNone =>
        let msg := "Parser returned None (missing required fields or invalid format)"
        ({ st with stats := stats.add_error job.path Stage.parse msg Severity.warning },
         evs ++ [Event.parseAttempt job.path])
      | ParseOutcome.exc =>
        let msg := "Parse exception"
        ({ st with stats := stats.add_error job.path Stage.parse msg Severity.error },
         evs ++ [Event.parseAttempt job.path])
      | ParseOutcome.ok n =>
        let stats := { stats with parsed := stats.parsed + 1 }
        match n with
        | NormOutcome.exc =>
          let msg := "Normalization exception"
          ({ st with stats := stats.add_error job.path Stage.normalize msg Severity.error },
           evs ++ [Event.parseAttempt job.path])
        | NormOutcome.ok rid =>
          let stats := { stats with normalized := stats.normalized + 1 }
          (flushIfFull db { stats := stats, buffer := st.buffer ++ [rid] },
           evs ++ [Event.parseAttempt job.path])

/-- State after processing a list of discovered files. -/
def runFiles (db : Db) (st : RunState) (jobs : List FileJob) : RunState :=
  jobs.foldl (fun s j => (processFile db s j).1) st

/-- Full run: process every discovered file, then store the remaining
buffered rules. -/
def ingest_repository (db : Db) (jobs : List FileJob) : Stats :=
  let st := runFiles db {} jobs
  if st.buffer.isEmpty then st.stats
  else
    let r := store_rules_safe db st.buffer
    { st.stats with
      stored := st.stats.stored + r.1
      errors := st.stats.errors ++ r.2 }

/-- The counter relations claimed to hold throughout a run: the pipeline
counters form a chain, and every discovered file is accounted for by a
skip, a recorded READ/PARSE error, or a successful parse. -/
def statsInvariant (s : Stats) : Prop :=
  s.stored ≤ s.normalized ∧ s.normalized ≤ s.parsed ∧ s.parsed ≤ s.discovered ∧
  s.parsed + s.skipped_by_filter +
    (s.stageCount Stage.read + s.stageCount Stage.parse) ≤ s.discovered

/-- Strengthened mid-run invariant: records buffered but not yet flushed
are counted between `stored` and `normalized`. -/
def runInvariant (st : RunState) : Prop :=
  st.stats.stored + st.buffer.length ≤ st.stats.normalized ∧
  st.stats.normalized ≤ st.stats.parsed ∧
  st.stats.parsed ≤ st.stats.discovered ∧
  st.stats.parsed + st.stats.skipped_by_filter +
    (st.stats.stageCount Stage.read + st.stats.stageCount Stage.parse) ≤ st.stats.discovered

end Ingest

/-! ## YAML values.  `yaml.safe_load` is an external library: its output
(a tree of Python scalars, lists and string-keyed dicts) is the boundary
of the embedding, modelled by the `Yaml` type. -/

inductive Yaml where
  | null
  | bool (b : Bool)
  | int (n : Int)
  | str (s : String)
  | list (items : List Yaml)
  | map (entries : List (String × Yaml))
deriving Repr

/-- Python truthiness of a loaded YAML value. -/
def Yaml.truthy : Yaml → Bool
  | .null => false
  | .bool b => b
  | .int n => n != 0
  | .str s => s ≠ ""
  | .list l => !l.isEmpty
  | .map m => !m.isEmpty

/-- Dict `get` on a loaded mapping (non-mappings have no keys). -/
def Yaml.get : Yaml → String → Option Yaml
  | .map es, k => List.lookup k es
  | _, _ => none

/-- Dict `get` with default. -/
def Yaml.getD (y : Yaml) (k : String) (d : Yaml) : Yaml := (y.get k).getD d

/-- String scalars; non-string values are modelled as absent (the
pipeline's rule files carry strings in all the fields the claims touch). -/
def Yaml.asString : Yaml → Option String
  | .str s => some s
  | _ => none

/-- Python `str(...)` of a scalar, used only for display fields. -/
def Yaml.toDisplay : Yaml → String
  | .null => "None"
  | .bool b => if b then "True" else "False"
  | .int n => toString n
  | .str s => s
  | .list _ => "[...]"
  | .map _ => "{...}"

/-- Elements of a loaded YAML list that are strings. -/
def Yaml.asStringList : Yaml → List String
  | .list l => l.filterMap Yaml.asString
  | _ => []

/-! ## Parsed rule and normalized detection records
(`app/parsers/base.py`, `app/normalizers/base.py`) -/

/-- The Sigma-style `logsource` triple inside `ParsedRule.log_source`. -/
structure LogSource where
  product : Option String := none
  category : Option String := none
  service : Option String := none
deriving Repr

/-- `ParsedRule.mitre_attack` once populated. -/
structure MitreHint where
  tactics : List String := []
  techniques : List String := []
deriving Repr, DecidableEq

/-- `ParsedRule` (the `extra` bag is modelled by the fields the Sigma
pipeline reads from it). -/
structure ParsedRule where
  source : String
  file_path : String
  raw_content : String
  title : String
  detection_logic_raw : Yaml
  description : Option String := none
  author : Option String := none
  status : Option String := none
  severity : Option String := none
  log_source : LogSource := {}
  tags : List String := []
  mitre_attack : MitreHint := {}
  false_positives : List String := []
  extra_id : Option String := none
  extra_references : Yaml := Yaml.null
  extra_date : Yaml := Yaml.null
  extra_modified : Yaml := Yaml.null
deriving Repr

/-- `NormalizedDetection` (pipeline-assigned timestamps omitted; the two
vendor date fields keep the accepted date string). -/
structure NormalizedDetection where
  id : String
  source : String
  source_file : String
  source_repo_url : String
  title : String
  description : Option String
  author : Option String
  status : String
  severity : String
  source_rule_url : Option String := none
  rule_id : Option String := none
  log_sources : List String := []
  data_sources : List String := []
  platform : String := ""
  event_category : String := ""
  data_source_normalized : String := ""
  mitre_tactics : List String := []
  mitre_techniques : List String := []
  detection_logic : String := ""
  language : String := "unknown"
  tags : List String := []
  references : List String := []
  false_positives : List String := []
  raw_content : String := ""
  rule_created_date : Option String := none
  rule_modified_date : Option String := none
deriving Repr

namespace Normalizer

/-- `BaseNormalizer.normalize_log_sources`: lowercase the truthy product /
category / service hints, deduplicated preserving order. -/
def normalize_log_sources (ls : LogSource) : List String :=
  let push (o : Option String) (acc : List String) : List String :=
    match o with
    | some s => if s ≠ "" then acc ++ [pyLower s] else acc
    | none => acc
  pyDedup (push ls.service (push ls.category (push ls.product [])))

/-- `BaseNormalizer.build_source_rule_url`. -/
def build_source_rule_url (repo_url file_path branch : String) : String :=
  let fp := pyReplace file_path "\\" "/"
  let fp := if pyStartsWith fp "/" then String.mk (fp.data.drop 1) else fp
  let ru := if pyEndsWith repo_url ".git"
            then String.mk (repo_url.data.take (repo_url.data.length - 4))
            else repo_url
  ru ++ "/blob/" ++ branch ++ "/" ++ fp

/-- `BaseNormalizer.normalize_references` on a loaded YAML field. -/
def normalize_references (references : Yaml) : List String :=
  match references with
  | Yaml.null => []
  | Yaml.str s => if s.trim ≠ "" then [s] else []
  | Yaml.list l => (l.filter Yaml.truthy).map Yaml.toDisplay
  | _ => []

/-- `BaseNormalizer.normalize_false_positives` (list branch; the parser
already delivers a list of strings). -/
def normalize_false_positives (fps : List String) : List String :=
  fps.filterMap (fun fp =>
    if fp ≠ "" then
      let cleaned := fp.trim
      if cleaned ≠ "" then some cleaned else none
    else none)

/-- `BaseNormalizer.parse_date`, reduced to the claims' needs: the
accepted date string is kept verbatim, non-strings are absent (none of the
frozen claims inspects parsed dates). -/
def parse_date (y : Yaml) : Option String := y.asString

/-- The `data_source_mapping` table of
`BaseNormalizer.normalize_data_sources`, in source order. -/
def data_source_mapping : List (String × String) :=
  [("sysmon", "Sysmon"), ("security", "Windows Security"),
   ("security_event", "Windows Security"), ("wineventlog", "Windows Event Log"),
   ("windows_event", "Windows Event Log"), ("system_event", "Windows System"),
   ("powershell", "PowerShell"), ("powershell_script", "PowerShell Script Block"),
   ("wmi", "WMI"), ("registry", "Windows Registry"),
   ("file_monitoring", "File Monitoring"), ("process_creation", "Process Creation"),
   ("network_connection", "Network Connection"), ("dns", "DNS"),
   ("dns_query", "DNS"), ("image_load", "Image Load"),
   ("driver_load", "Driver Load"), ("pipe_created", "Named Pipe"),
   ("firewall", "Windows Firewall"), ("create_remote_thread", "Remote Thread"),
   ("process_access", "Process Access"), ("file_event", "File Monitoring"),
   ("create_stream_hash", "Alternate Data Stream"), ("endpoint", "Endpoint"),
   ("behavior_event", "Behavior Detection"), ("edr", "EDR"),
   ("network", "Network Traffic"), ("netflow", "NetFlow"),
   ("packet", "Packet Capture"), ("proxy", "Web Proxy"),
   ("webproxy", "Web Proxy"), ("firewall_logs", "Firewall"),
   ("ids", "IDS/IPS"), ("zeek", "Zeek"),
   ("aws", "AWS CloudTrail"), ("cloudtrail", "AWS CloudTrail"),
   ("azure", "Azure Activity"), ("gcp", "GCP Audit"),
   ("cloud", "Cloud"), ("o365", "Office 365"),
   ("m365", "Microsoft 365"), ("okta", "Okta"),
   ("github", "GitHub"), ("linux_syslog", "Linux Syslog"),
   ("linux", "Linux"), ("auditd", "Linux Auditd"),
   ("macos_logs", "macOS Logs"), ("macos", "macOS"),
   ("unix", "Unix/Linux"), ("email", "Email"),
   ("smtp", "SMTP"), ("authentication", "Authentication"),
   ("active_directory", "Active Directory"), ("ldap", "LDAP"),
   ("rmm_tool", "RMM Tool"), ("application", "Application"),
   ("webserver", "Web Server"), ("antivirus", "Antivirus")]

/-- Python `str.title()`: the first character of every alphabetic run is
uppercased, the rest of the run lowercased. -/
def pyTitle (s : String) : String :=
  String.mk (s.data.foldl
    (fun (acc : List Char × Bool) c =>
      if c.isAlpha then
        (acc.1 ++ [if acc.2 then c.toLower else c.toUpper], true)
      else
        (acc.1 ++ [c], false))
    ([], false)).1

/-- `BaseNormalizer.normalize_data_sources`: exact match first, then first
substring match in table order, else a title-cased copy of the raw token;
results deduplicated preserving order. -/
def normalize_data_sources (raw_sources : List String) : List String :=
  pyDedup (raw_sources.filterMap (fun source =>
    if source = "" then none
    else
      let source_lower := (pyLower source).trim
      match List.lookup source_lower data_source_mapping with
      | some mapped => some mapped
      | none =>
        match data_source_mapping.findSome? (fun pm =>
          if strContains source_lower pm.1 then some pm.2 else none) with
        | some mapped => some mapped
        | none => some (pyTitle (pyReplace source "_" " "))))

/-- Modelled from the spec: `apply_log_source_taxonomy` is called by every
normalizer but its definition is not under `src/`; per §4.4 and §4.2 of
the spec it standardizes the hint set through the Taxonomy Classifier,
returning the `(platform, event_category, data_source)` triple. -/
def apply_log_source_taxonomy (log_sources : List String)
    (product category service : Option String) : String × String × String :=
  Taxonomy.standardize_log_sources log_sources product category service none

end Normalizer

/-! ## Sigma parser (`app/parsers/sigma.py`) -/

namespace Sigma

/-- The `TACTIC_MAPPING` table of `SigmaParser`. -/
def TACTIC_MAPPING : List (String × String) :=
  [("reconnaissance", "TA0043"), ("resource-development", "TA0042"),
   ("initial-access", "TA0001"), ("execution", "TA0002"),
   ("persistence", "TA0003"), ("privilege-escalation", "TA0004"),
   ("defense-evasion", "TA0005"), ("credential-access", "TA0006"),
   ("discovery", "TA0007"), ("lateral-movement", "TA0008"),
   ("collection", "TA0009"), ("command-and-control", "TA0011"),
   ("exfiltration", "TA0010"), ("impact", "TA0040"),
   ("resource_development", "TA0042"), ("initial_access", "TA0001"),
   ("privilege_escalation", "TA0004"), ("defense_evasion", "TA0005"),
   ("credential_access", "TA0006"), ("lateral_movement", "TA0008"),
   ("command_and_control", "TA0011")]

/-- `SigmaParser._normalize_tactic_name`. -/
def normalize_tactic_name (tactic_name : String) : String :=
  pyReplace tactic_name "_" "-"

/-- Membership test `name in TACTIC_MAPPING` (dict key containment). -/
def inTacticMapping (name : String) : Bool :=
  (List.lookup name TACTIC_MAPPING).isSome

/-- `SigmaParser._is_mitre_tag`. -/
def is_mitre_tag (tag : String) : Bool :=
  let tl := pyLower tag
  if pyStartsWith tl "attack.t" then true
  else if pyStartsWith tl "attack.s" then true
  else if pyStartsWith tl "attack.g" then true
  else if pyStartsWith tl "attack." then
    let tactic_name := pyReplace tl "attack." ""
    inTacticMapping tactic_name || inTacticMapping (normalize_tactic_name tactic_name)
  else false

/-- `SigmaParser._extract_mitre_from_tags`. -/
def extract_mitre_from_tags (tags : List String) : MitreHint :=
  tags.foldl
    (fun acc tag =>
      let tl := pyLower tag
      if pyStartsWith tl "attack.t" then
        let technique_id := pyUpper (pyReplace tl "attack." "")
        if technique_id ∈ acc.techniques then acc
        else { acc with techniques := acc.techniques ++ [technique_id] }
      else if pyStartsWith tl "attack.s" then acc
      else if pyStartsWith tl "attack.g" then acc
      else if pyStartsWith tl "attack." then
        let tactic_name := pyReplace tl "attack." ""
        match List.lookup tactic_name TACTIC_MAPPING with
        | some tactic_id =>
          if tactic_id ∈ acc.tactics then acc
          else { acc with tactics := acc.tactics ++ [tactic_id] }
        | none =>
          match List.lookup (normalize_tactic_name tactic_name) TACTIC_MAPPING with
          | some tactic_id =>
            if tactic_id ∈ acc.tactics then acc
            else { acc with tactics := acc.tactics ++ [tactic_id] }
          | none => acc
      else acc)
    {}

/-- `SigmaParser.parse`, from the first document produced by
`yaml.safe_load_all(content)` onward (`doc? = none` models an empty
document stream). -/
def parse (file_path content : String) (doc? : Option Yaml) : Option ParsedRule :=
  match doc? with
  | none => none
  | some rule =>
    match rule with
    | Yaml.map _ =>
      let titleY := (rule.get "title").getD Yaml.null
      if !titleY.truthy then none
      else
        let detection := (rule.get "detection").getD Yaml.null
        if !detection.truthy then none
        else
          let logsource := rule.getD "logsource" (Yaml.map [])
          let log_source : LogSource :=
            { product := (logsource.get "product").bind Yaml.asString
              category := (logsource.get "category").bind Yaml.asString
              service := (logsource.get "service").bind Yaml.asString }
          let tagsY := rule.getD "tags" (Yaml.list [])
          let tags := (if tagsY.truthy then tagsY else Yaml.list []).asStringList
          let mitre_attack := extract_mitre_from_tags tags
          let statusY := rule.getD "status" (Yaml.str "unknown")
          let severityY := rule.getD "level" (Yaml.str "unknown")
          let fpY := rule.getD "falsepositives" (Yaml.list [])
          let fpY := if fpY.truthy then fpY else Yaml.list []
          let false_positives :=
            match fpY with
            | Yaml.list _ => fpY.asStringList
            | other => [other.toDisplay]
          some
            { source := "sigma"
              file_path := file_path
              raw_content := content
              title := titleY.toDisplay
              description := (rule.get "description").bind Yaml.asString
              author := (rule.get "author").bind Yaml.asString
              status := statusY.asString
              severity := severityY.asString
              log_source := log_source
              tags := tags.filter (fun t => !is_mitre_tag t)
              mitre_attack := mitre_attack
              detection_logic_raw := detection
              false_positives := false_positives
              extra_id := (rule.get "id").bind Yaml.asString
              extra_references := rule.getD "references" (Yaml.list [])
              extra_date := (rule.get "date").getD Yaml.null
              extra_modified := (rule.get "modified").getD Yaml.null }
    | _ => none

/-- Rendering of the detection body (`yaml.dump`, an external library
call; the rendered text is carried opaquely and inspected by no claim). -/
def format_detection_logic : Yaml → String
  | Yaml.map _ => "yaml-rendered detection body"
  | other => other.toDisplay

/-- `SigmaNormalizer._extract_data_sources`. -/
def extract_data_sources (parsed : ParsedRule) : List String :=
  let product := pyLower ((parsed.log_source.product).getD "")
  let category := pyLower ((parsed.log_source.category).getD "")
  let service := pyLower ((parsed.log_source.service).getD "")
  let raw := (if service ≠ "" then [service] else []) ++
             (if category ≠ "" then [category] else []) ++
             (if product ≠ "" ∧ service = "" then
                if product = "windows" then ["windows_event"]
                else if product = "linux" then ["linux"]
                else if product = "macos" then ["macos"]
                else []
              else [])
  Normalizer.normalize_data_sources raw

/-- `SigmaNormalizer.normalize`. -/
def normalize (repo_url : String) (parsed : ParsedRule) : NormalizedDetection :=
  let product := parsed.log_source.product
  let category := parsed.log_source.category
  let service := parsed.log_source.service
  let log_sources_list := Normalizer.normalize_log_sources parsed.log_source
  let taxo := Normalizer.apply_log_source_taxonomy log_sources_list product category service
  { id := Normalizer.generate_id parsed.source parsed.file_path
    source := parsed.source
    source_file := parsed.file_path
    source_repo_url := repo_url
    source_rule_url := some (Normalizer.build_source_rule_url repo_url parsed.file_path "master")
    rule_id := parsed.extra_id
    title := parsed.title
    description := parsed.description
    author := parsed.author
    status := Normalizer.normalize_status parsed.status
    severity := Normalizer.normalize_severity parsed.severity
    log_sources := log_sources_list
    data_sources := extract_data_sources parsed
    platform := taxo.1
    event_category := taxo.2.1
    data_source_normalized := taxo.2.2
    mitre_tactics := parsed.mitre_attack.tactics
    mitre_techniques := parsed.mitre_attack.techniques
    detection_logic := format_detection_logic parsed.detection_logic_raw
    language := "sigma"
    tags := parsed.tags
    references := Normalizer.normalize_references parsed.extra_references
    false_positives := Normalizer.normalize_false_positives parsed.false_positives
    raw_content := parsed.raw_content
    rule_created_date := Normalizer.parse_date parsed.extra_date
    rule_modified_date := Normalizer.parse_date parsed.extra_modified }

end Sigma

/-- The sortedness relation used by `sortStrings` as a `Prop`. -/
def SLe (a b : String) : Prop := strLe a b = true

/-! ## Concrete instances used by witnesses and counterexamples -/

/-- A one-technique catalog with a valid technique. -/
def catOneValid : Mitre.Catalog :=
  [("T1566", ⟨"Phishing", ["TA0001"], false, false⟩)]

/-- A catalog holding a sub-technique and its parent, whose tactic sets
differ. -/
def catSubParent : Mitre.Catalog :=
  [("T9999", ⟨"Parent technique", ["TA0002"], false, false⟩),
   ("T9999.001", ⟨"Sub-technique", ["TA0001"], false, false⟩)]

/-- A database oracle whose commits always succeed. -/
def dbAlwaysOk : Ingest.Db :=
  ⟨fun _ => true, fun _ => true⟩

/-- A file that reads fine but fails the `can_parse` filter. -/
def jobFiltered : Ingest.FileJob :=
  ⟨"docs/readme.md", some "sample content", false, Ingest.ParseOutcome.retNone⟩

/-- A three-file corpus: two parse and normalize fine, one is malformed. -/
def jobsOneBad : List Ingest.FileJob :=
  [⟨"rules/a.yml", some "a", true, Ingest.ParseOutcome.ok (Ingest.NormOutcome.ok "id-a")⟩,
   ⟨"rules/bad.yml", some "b", true, Ingest.ParseOutcome.retNone⟩,
   ⟨"rules/c.yml", some "c", true, Ingest.ParseOutcome.ok (Ingest.NormOutcome.ok "id-c")⟩]

/-- The loaded YAML document of the Sigma scenario of §8 of the spec. -/
def sigmaScenarioDoc : Yaml :=
  Yaml.map
    [("title", Yaml.str "Suspicious PowerShell"),
     ("level", Yaml.str "high"),
     ("tags", Yaml.list [Yaml.str "attack.execution", Yaml.str "attack.t1059.001"]),
     ("detection", Yaml.map
       [("selection", Yaml.map [("CommandLine|contains", Yaml.str "-enc")]),
        ("condition", Yaml.str "selection")])]

/-! ## Lemmas about the string order and the set/sort helpers -/

theorem char_toNat_inj {a b : Char} (h : a.toNat = b.toNat) : a = b := by
  unfold Char.toNat at h
  exact Char.ext (UInt32.toNat.inj h)

theorem listLe_total : ∀ a b : List Char, listLe a b = true ∨ listLe b a = true
  | [], _ => Or.inl rfl
  | _ :: _, [] => Or.inr rfl
  | a :: as, b :: bs => by
    simp only [listLe]
    rcases Nat.lt_trichotomy a.toNat b.toNat with h | h | h
    · left; simp [h]
    · have h' : ¬ a.toNat < b.toNat := by omega
      have h'' : ¬ b.toNat < a.toNat := by omega
      simpa [h', h''] using listLe_total as bs
    · right; simp [h, Nat.lt_asymm h]

theorem listLe_trans : ∀ {a b c : List Char},
    listLe a b = true → listLe b c = true → listLe a c = true
  | [], _, _, _, _ => rfl
  | _ :: _, [], _, h, _ => by simp [listLe] at h
  | _ :: _, _ :: _, [], _, h => by simp [listLe] at h
  | a :: as, b :: bs, c :: cs, hab, hbc => by
    simp only [listLe] at hab hbc ⊢
    rcases Nat.lt_trichotomy a.toNat b.toNat with h1 | h1 | h1
    · rcases Nat.lt_trichotomy b.toNat c.toNat with h2 | h2 | h2
      · simp [h1.trans h2]
      · simp [show a.toNat < c.toNat from h2 ▸ h1]
      · simp [Nat.lt_asymm h2, h2] at hbc
    · rcases Nat.lt_trichotomy b.toNat c.toNat with h2 | h2 | h2
      · simp [show a.toNat < c.toNat from h1 ▸ h2]
      · have hne1 : ¬ a.toNat < b.toNat := by omega
        have hne2 : ¬ b.toNat < a.toNat := by omega
        have hne3 : ¬ b.toNat < c.toNat := by omega
        have hne4 : ¬ c.toNat < b.toNat := by omega
        have hne5 : ¬ a.toNat < c.toNat := by omega
        have hne6 : ¬ c.toNat < a.toNat := by omega
        rw [if_neg hne1, if_neg hne2] at hab
        rw [if_neg hne3, if_neg hne4] at hbc
        rw [if_neg hne5, if_neg hne6]
        exact listLe_trans hab hbc
      · simp [Nat.lt_asymm h2, h2] at hbc
    · simp [Nat.lt_asymm h1, h1] at hab

theorem listLe_antisymm : ∀ {a b : List Char},
    listLe a b = true → listLe b a = true → a = b
  | [], [], _, _ => rfl
  | [], _ :: _, _, h => by simp [listLe] at h
  | _ :: _, [], h, _ => by simp [listLe] at h
  | a :: as, b :: bs, hab, hba => by
    simp only [listLe] at hab hba
    rcases Nat.lt_trichotomy a.toNat b.toNat with h1 | h1 | h1
    · simp [h1, Nat.lt_asymm h1] at hba
    · have h' : ¬ a.toNat < b.toNat := by omega
      have h'' : ¬ b.toNat < a.toNat := by omega
      simp only [h', h'', if_false] at hab hba
      have := listLe_antisymm hab hba
      rw [char_toNat_inj h1, this]
    · simp [h1, Nat.lt_asymm h1] at hab

theorem strLe_total (a b : String) : SLe a b ∨ SLe b a := listLe_total a.data b.data

theorem strLe_trans {a b c : String} (h1 : SLe a b) (h2 : SLe b c) : SLe a c :=
  listLe_trans h1 h2

theorem strLe_antisymm {a b : String} (h1 : SLe a b) (h2 : SLe b a) : a = b := by
  cases a; cases b
  exact congrArg String.mk (listLe_antisymm h1 h2)

theorem mem_insertSorted {x y : String} : ∀ {l : List String},
    y ∈ insertSorted x l ↔ y = x ∨ y ∈ l
  | [] => by simp [insertSorted]
  | z :: zs => by
    unfold insertSorted
    by_cases h : strLe x z = true
    · rw [if_pos h]
      simp only [List.mem_cons]
    · rw [if_neg h]
      simp only [List.mem_cons, mem_insertSorted (l := zs)]
      tauto

theorem insertSorted_perm (x : String) : ∀ (l : List String),
    (insertSorted x l).Perm (x :: l)
  | [] => List.Perm.refl _
  | z :: zs => by
    unfold insertSorted
    by_cases h : strLe x z = true
    · rw [if_pos h]
    · rw [if_neg h]
      exact ((insertSorted_perm x zs).cons z).trans (List.Perm.swap x z zs)

theorem pairwise_insertSorted (x : String) : ∀ {l : List String},
    l.Pairwise SLe → (insertSorted x l).Pairwise SLe
  | [], _ => by simp [insertSorted, List.Pairwise]
  | z :: zs, h => by
    rw [List.pairwise_cons] at h
    unfold insertSorted
    by_cases hxz : strLe x z = true
    · rw [if_pos hxz, List.pairwise_cons]
      refine ⟨?_, List.pairwise_cons.mpr h⟩
      intro b hb
      rcases List.mem_cons.mp hb with rfl | hb'
      · exact hxz
      · exact strLe_trans hxz (h.1 b hb')
    · rw [if_neg hxz, List.pairwise_cons]
      refine ⟨?_, pairwise_insertSorted x h.2⟩
      intro b hb
      rcases mem_insertSorted.mp hb with rfl | hb'
      · rcases strLe_total z b with hz | hz
        · exact hz
        · exact absurd hz hxz
      · exact h.1 b hb'

theorem sortStrings_perm : ∀ (l : List String), (sortStrings l).Perm l
  | [] => List.Perm.refl _
  | x :: xs =>
    ((insertSorted_perm x (sortStrings xs)).trans ((sortStrings_perm xs).cons x))

theorem sortStrings_pairwise : ∀ (l : List String), (sortStrings l).Pairwise SLe
  | [] => List.Pairwise.nil
  | x :: xs => pairwise_insertSorted x (sortStrings_pairwise xs)

theorem mem_sortStrings {x : String} {l : List String} :
    x ∈ sortStrings l ↔ x ∈ l := (sortStrings_perm l).mem_iff

theorem sortStrings_nodup {l : List String} (h : l.Nodup) : (sortStrings l).Nodup :=
  (sortStrings_perm l).symm.nodup h

theorem mem_addToSet {acc : List String} {a x : String} :
    x ∈ addToSet acc a ↔ x ∈ acc ∨ x = a := by
  unfold addToSet
  by_cases h : a ∈ acc
  · simp only [h, if_true]
    constructor
    · exact Or.inl
    · rintro (hx | rfl) <;> [exact hx; exact h]
  · simp [h]

theorem nodup_addToSet {acc : List String} {a : String} (h : acc.Nodup) :
    (addToSet acc a).Nodup := by
  unfold addToSet
  by_cases ha : a ∈ acc
  · simpa [ha]
  · rw [if_neg ha, List.nodup_append]
    refine ⟨h, List.nodup_singleton a, ?_⟩
    intro x hx
    simp only [List.mem_singleton]
    intro he
    exact ha (he ▸ hx)

theorem mem_foldl_addToSet : ∀ (l acc : List String) (x : String),
    x ∈ l.foldl addToSet acc ↔ x ∈ acc ∨ x ∈ l
  | [], acc, x => by simp
  | a :: t, acc, x => by
    rw [List.foldl_cons, mem_foldl_addToSet t (addToSet acc a) x, mem_addToSet]
    simp only [List.mem_cons]
    tauto

theorem nodup_foldl_addToSet : ∀ (l acc : List String), acc.Nodup →
    (l.foldl addToSet acc).Nodup
  | [], _, h => h
  | a :: t, acc, h => nodup_foldl_addToSet t (addToSet acc a) (nodup_addToSet h)

/-! ## C1 — MITRE technique resolution -/

/-- C1: `map_technique` returns the id unchanged when it is valid (known
and neither deprecated nor revoked); otherwise it returns the statically
remapped id when that remapped id is itself valid; otherwise it returns
the original id when the id is present in the catalog (necessarily
deprecated or revoked); otherwise it returns `none`.  In particular every
returned id either is valid, or is the original present-but-invalid id in
which case the static table offered no valid remapping. -/
theorem C1_map_technique_resolution (cat : Mitre.Catalog) (id : String) :
    (Mitre.is_valid_technique cat id = true → Mitre.map_technique cat id = some id) ∧
    (∀ m, Mitre.is_valid_technique cat id = false →
      List.lookup id Mitre.DEPRECATED_TECHNIQUE_MAPPING = some m →
      Mitre.is_valid_technique cat m = true →
      Mitre.map_technique cat id = some m) ∧
    (Mitre.is_valid_technique cat id = false →
      (∀ m, List.lookup id Mitre.DEPRECATED_TECHNIQUE_MAPPING = some m →
        Mitre.is_valid_technique cat m = false) →
      (Mitre.lookupTech cat id).isSome = true →
      Mitre.map_technique cat id = some id) ∧
    (Mitre.is_valid_technique cat id = false →
      (∀ m, List.lookup id Mitre.DEPRECATED_TECHNIQUE_MAPPING = some m →
        Mitre.is_valid_technique cat m = false) →
      Mitre.lookupTech cat id = none →
      Mitre.map_technique cat id = none) ∧
    (∀ r, Mitre.map_technique cat id = some r →
      Mitre.is_valid_technique cat r = true ∨
      (r = id ∧ (Mitre.lookupTech cat id).isSome = true ∧
        Mitre.is_valid_technique cat id = false ∧
        (∀ m, List.lookup id Mitre.DEPRECATED_TECHNIQUE_MAPPING = some m →
          Mitre.is_valid_technique cat m = false))) := by
  refine ⟨?_, ?_, ?_, ?_, ?_⟩
  · intro h
    simp [Mitre.map_technique, h]
  · intro m h hm hv
    simp [Mitre.map_technique, h, hm, hv]
  · intro h hall hsome
    cases hm : List.lookup id Mitre.DEPRECATED_TECHNIQUE_MAPPING with
    | none => simp [Mitre.map_technique, h, hm, hsome]
    | some m => simp [Mitre.map_technique, h, hm, hall m hm, hsome]
  · intro h hall hnone
    cases hm : List.lookup id Mitre.DEPRECATED_TECHNIQUE_MAPPING with
    | none => simp [Mitre.map_technique, h, hm, hnone]
    | some m => simp [Mitre.map_technique, h, hm, hall m hm, hnone]
  · intro r hr
    by_cases hv : Mitre.is_valid_technique cat id = true
    · left
      simp [Mitre.map_technique, hv] at hr
      rw [← hr]
      exact hv
    · have hv' : Mitre.is_valid_technique cat id = false := by
        simpa using hv
      cases hm : List.lookup id Mitre.DEPRECATED_TECHNIQUE_MAPPING with
      | some m =>
        by_cases hvm : Mitre.is_valid_technique cat m = true
        · left
          simp [Mitre.map_technique, hv', hm, hvm] at hr
          rw [← hr]
          exact hvm
        · have hvm' : Mitre.is_valid_technique cat m = false := by
            simpa using hvm
          by_cases hs : (Mitre.lookupTech cat id).isSome = true
          · right
            simp [Mitre.map_technique, hv', hm, hvm', hs] at hr
            refine ⟨hr.symm, hs, hv', ?_⟩
            intro m' hm'
            have h' : m = m' := Option.some.inj hm'
            rw [← h']
            exact hvm'
          · have hs' : (Mitre.lookupTech cat id).isSome = false := by
              simpa using hs
            simp [Mitre.map_technique, hv', hm, hvm', hs'] at hr
      | none =>
        by_cases hs : (Mitre.lookupTech cat id).isSome = true
        · right
          simp [Mitre.map_technique, hv', hm, hs] at hr
          refine ⟨hr.symm, hs, hv', ?_⟩
          intro m' hm'
          exact absurd hm' (by simp)
        · have hs' : (Mitre.lookupTech cat id).isSome = false := by
            simpa using hs
          simp [Mitre.map_technique, hv', hm, hs'] at hr

/-- Witness for C1 at a concrete catalog and id. -/
theorem C1_witness : Mitre.map_technique catOneValid "T1566" = some "T1566" :=
  (C1_map_technique_resolution catOneValid "T1566").1 (by decide)

/-! ## C2 — tactics for technique lists -/

/-- C2 counterexample: in a catalog where the sub-technique `T9999.001`
is itself present and valid with tactics `["TA0001"]` and its parent
`T9999` carries `["TA0002"]`, the code still consults the parent, so the
result is `["TA0001", "TA0002"]`, not the `["TA0001"]` the claim's
"only when ... not itself found" condition dictates. -/
theorem C2_counterexample :
    Mitre.lookupTech catSubParent "T9999.001" =
      some ⟨"Sub-technique", ["TA0001"], false, false⟩ ∧
    Mitre.map_technique catSubParent "T9999.001" = some "T9999.001" ∧
    Mitre.tacticsOfId catSubParent "T9999.001" = ["TA0001"] ∧
    Mitre.get_tactics_for_techniques catSubParent ["T9999.001"] = ["TA0001", "TA0002"] := by
  refine ⟨by decide, by decide, by decide, by decide⟩

/-- C2 amended: `tactics_for` returns the sorted, duplicate-free union of
each (possibly remapped) technique's tactics, where the parent's tactics
are additionally consulted for every (remapped) id containing a dot,
regardless of whether the sub-technique itself is found in the catalog
(`tacticContribution` is exactly the loop body's contribution). -/
theorem C2_tactics_union_sorted (cat : Mitre.Catalog) (ids : List String) :
    List.Pairwise SLe (Mitre.get_tactics_for_techniques cat ids) ∧
    (Mitre.get_tactics_for_techniques cat ids).Nodup ∧
    ∀ t, t ∈ Mitre.get_tactics_for_techniques cat ids ↔
      ∃ id ∈ ids, t ∈ Mitre.tacticContribution cat id := by
  have hfold : ∀ (l acc : List String) (t : String),
      t ∈ l.foldl (fun acc id => (Mitre.tacticContribution cat id).foldl addToSet acc) acc ↔
      t ∈ acc ∨ ∃ id ∈ l, t ∈ Mitre.tacticContribution cat id := by
    intro l
    induction l with
    | nil => intro acc t; simp
    | cons a l ih =>
      intro acc t
      rw [List.foldl_cons, ih, mem_foldl_addToSet]
      constructor
      · rintro ((h | h) | ⟨w, hw, hcw⟩)
        · exact Or.inl h
        · exact Or.inr ⟨a, List.mem_cons_self a l, h⟩
        · exact Or.inr ⟨w, List.mem_cons_of_mem a hw, hcw⟩
      · rintro (h | ⟨w, hw, hcw⟩)
        · exact Or.inl (Or.inl h)
        · rcases List.mem_cons.mp hw with rfl | hw'
          · exact Or.inl (Or.inr hcw)
          · exact Or.inr ⟨w, hw', hcw⟩
  have hnd : ∀ (l acc : List String), acc.Nodup →
      (l.foldl (fun acc id => (Mitre.tacticContribution cat id).foldl addToSet acc) acc).Nodup := by
    intro l
    induction l with
    | nil => intro acc h; exact h
    | cons a l ih =>
      intro acc h
      rw [List.foldl_cons]
      exact ih _ (nodup_foldl_addToSet _ _ h)
  refine ⟨sortStrings_pairwise _, sortStrings_nodup (hnd ids [] List.nodup_nil), ?_⟩
  intro t
  rw [show Mitre.get_tactics_for_techniques cat ids =
    sortStrings (ids.foldl (fun acc id =>
      (Mitre.tacticContribution cat id).foldl addToSet acc) []) from rfl]
  rw [mem_sortStrings, hfold]
  simp

/-! ## C5 — status/severity closure -/

/-- C5: `normalize_status` and `normalize_severity` map every input —
any string, the empty string, or absent — into the fixed enumerations
(and, being total functions, never raise). -/
theorem C5_status_severity_closure (s : Option String) :
    Normalizer.normalize_status s ∈ ["stable", "experimental", "deprecated", "unknown"] ∧
    Normalizer.normalize_severity s ∈ ["low", "medium", "high", "critical", "unknown"] := by
  constructor
  · unfold Normalizer.normalize_status
    cases s with
    | none => simp
    | some str => simp only []; split_ifs <;> simp
  · unfold Normalizer.normalize_severity
    cases s with
    | none => simp
    | some str => simp only []; split_ifs <;> simp

/-! ## C6 — taxonomy totality -/

theorem option_orElse_eq_some {α : Type} {a b : Option α} {x : α}
    (h : (a <|> b) = some x) : a = some x ∨ b = some x := by
  cases a <;> simp_all

theorem dinsert_values {S : List String} {d : List (String × String)} {k v : String}
    (hd : ∀ p ∈ d, p.2 ∈ S) (hv : v ∈ S) : ∀ p ∈ Taxonomy.dinsert d k v, p.2 ∈ S := by
  intro p hp
  unfold Taxonomy.dinsert at hp
  split_ifs at hp
  · rcases List.mem_map.mp hp with ⟨q, hq, hqe⟩
    by_cases hqk : q.1 == k
    · simp only [hqk, if_true] at hqe
      rw [← hqe]
      exact hv
    · simp only [hqk, if_neg] at hqe
      rw [← hqe]
      exact hd q hq
  · rcases List.mem_append.mp hp with hp' | hp'
    · exact hd p hp'
    · rw [List.mem_singleton.mp hp']
      exact hv

theorem foldl_dinsert_values {S : List String} :
    ∀ (kws : List String) (id : String) (m : List (String × String)),
      id ∈ S → (∀ p ∈ m, p.2 ∈ S) →
      ∀ p ∈ kws.foldl (fun m kw => Taxonomy.dinsert m (pyLower kw) id) m, p.2 ∈ S
  | [], _, _, _, hm => hm
  | kw :: kws, id, m, hid, hm => by
    rw [List.foldl_cons]
    exact foldl_dinsert_values kws id _ hid (dinsert_values hm hid)

theorem buildKeywordMap_values {S : List String} :
    ∀ (entries : List (String × List String)) (m : List (String × String)),
      (∀ e ∈ entries, e.1 ∈ S) → (∀ p ∈ m, p.2 ∈ S) →
      ∀ p ∈ entries.foldl
        (fun m e => e.2.foldl (fun m kw => Taxonomy.dinsert m (pyLower kw) e.1) m) m,
        p.2 ∈ S
  | [], _, _, hm => hm
  | e :: entries, m, he, hm => by
    rw [List.foldl_cons]
    exact buildKeywordMap_values entries _
      (fun e' he' => he e' (List.mem_cons_of_mem e he'))
      (foldl_dinsert_values e.2 e.1 m (he e (List.mem_cons_self e entries)) hm)

theorem platform_keyword_map_values :
    ∀ p ∈ Taxonomy.PLATFORM_KEYWORD_MAP, p.2 ∈ Taxonomy.PLATFORMS.map Prod.fst := by
  intro p hp
  have h := buildKeywordMap_values (S := Taxonomy.PLATFORMS.map Prod.fst)
    (Taxonomy.PLATFORMS.map (fun q => (q.1, q.2.keywords))) []
    (by
      intro e he
      rcases List.mem_map.mp he with ⟨q, hq, rfl⟩
      exact List.mem_map.mpr ⟨q, hq, rfl⟩)
    (by intro q hq; cases hq)
  exact h p hp

theorem event_category_keyword_map_values :
    ∀ p ∈ Taxonomy.EVENT_CATEGORY_KEYWORD_MAP,
      p.2 ∈ Taxonomy.EVENT_CATEGORIES.map Prod.fst := by
  intro p hp
  have h := buildKeywordMap_values (S := Taxonomy.EVENT_CATEGORIES.map Prod.fst)
    (Taxonomy.EVENT_CATEGORIES.map (fun q => (q.1, q.2.keywords))) []
    (by
      intro e he
      rcases List.mem_map.mp he with ⟨q, hq, rfl⟩
      exact List.mem_map.mpr ⟨q, hq, rfl⟩)
    (by intro q hq; cases hq)
  exact h p hp

theorem dlookup_mem {d : List (String × String)} {k v : String}
    (h : Taxonomy.dlookup d k = some v) : ∃ p ∈ d, p.2 = v := by
  unfold Taxonomy.dlookup at h
  cases hf : d.find? (fun p => p.1 == k) with
  | none => rw [hf] at h; cases h
  | some p =>
    rw [hf] at h
    exact ⟨p, List.mem_of_find?_eq_some hf, Option.some.inj h⟩

theorem foldl_pick_mem : ∀ (xs : List (String × Nat)) (b : String × Nat),
    xs.foldl (fun best y => if y.2 > best.2 then y else best) b = b ∨
    xs.foldl (fun best y => if y.2 > best.2 then y else best) b ∈ xs
  | [], _ => Or.inl rfl
  | y :: ys, b => by
    rw [List.foldl_cons]
    rcases foldl_pick_mem ys (if y.2 > b.2 then y else b) with h | h
    · rw [h]
      by_cases hy : y.2 > b.2
      · rw [if_pos hy]; exact Or.inr (List.mem_cons_self y ys)
      · rw [if_neg hy]; exact Or.inl rfl
    · exact Or.inr (List.mem_cons_of_mem y h)

theorem pyArgmax_mem {l : List (String × Nat)} {x : String}
    (h : Taxonomy.pyArgmax l = some x) : x ∈ l.map Prod.fst := by
  match l with
  | [] => cases h
  | b :: xs =>
    unfold Taxonomy.pyArgmax at h
    have hx := Option.some.inj h
    rcases foldl_pick_mem xs b with h' | h'
    · rw [h'] at hx
      exact List.mem_map.mpr ⟨b, List.mem_cons_self b xs, hx⟩
    · exact List.mem_map.mpr ⟨_, List.mem_cons_of_mem b h', hx⟩

theorem keywordScores_fst {entries : List (String × List String)} {st : String}
    {p : String × Nat} (hp : p ∈ Taxonomy.keywordScores entries st) :
    p.1 ∈ entries.map Prod.fst := by
  unfold Taxonomy.keywordScores at hp
  rcases List.mem_filterMap.mp hp with ⟨e, he, hfe⟩
  by_cases hc : e.2.countP (fun kw => strContains st kw) > 0
  · simp only [hc, if_pos] at hfe
    have : p.1 = e.1 := by rw [← Option.some.inj hfe]
    rw [this]
    exact List.mem_map.mpr ⟨e, he, rfl⟩
  · simp [hc] at hfe

theorem data_sources_platform_valid :
    ∀ p ∈ Taxonomy.DATA_SOURCES, p.2.platform ∈ Taxonomy.PLATFORMS.map Prod.fst := by
  decide

theorem getD_empty_cases {o : Option String} {S : List String}
    (h : ∀ x, o = some x → x ∈ S) : o.getD "" ∈ S ∨ o.getD "" = "" := by
  cases o with
  | none => right; rfl
  | some x => left; exact h x rfl

theorem platformFromProduct_mem {product : Option String} {x : String}
    (h : Taxonomy.platformFromProduct product = some x) :
    x ∈ Taxonomy.PLATFORMS.map Prod.fst := by
  cases product with
  | none => cases h
  | some p =>
    unfold Taxonomy.platformFromProduct at h
    dsimp only [] at h
    by_cases hne : p ≠ ""
    case neg => rw [if_neg hne] at h; cases h
    rw [if_pos hne] at h
    cases hdl : Taxonomy.dlookup Taxonomy.PLATFORM_KEYWORD_MAP
        (pyReplace (pyReplace (pyLower p) "-" "_") " " "_") with
    | some plat =>
      rw [hdl] at h
      dsimp only [] at h
      have hx : plat = x := Option.some.inj h
      rcases dlookup_mem hdl with ⟨q, hq, hqv⟩
      rw [← hx, ← hqv]
      exact platform_keyword_map_values q hq
    | none =>
      rw [hdl] at h
      dsimp only [] at h
      split_ifs at h with hfind
      cases hf2 : Taxonomy.PLATFORMS.find? (fun q =>
          q.1 == pyReplace (pyReplace (pyLower p) "-" "_") " " "_") with
      | none => rw [hf2] at hfind; cases hfind
      | some q =>
        have hqm := List.mem_of_find?_eq_some hf2
        have heq := List.find?_some hf2
        rw [beq_iff_eq] at heq
        have hqx : q.1 = x := by rw [heq]; exact Option.some.inj h
        rw [← hqx]
        exact List.mem_map.mpr ⟨q, hqm, rfl⟩

theorem platformFromService_mem {service : Option String} {x : String}
    (h : Taxonomy.platformFromService service = some x) :
    x ∈ Taxonomy.PLATFORMS.map Prod.fst := by
  cases service with
  | none => cases h
  | some s =>
    unfold Taxonomy.platformFromService at h
    dsimp only [] at h
    by_cases hne : s ≠ ""
    case neg => rw [if_neg hne] at h; cases h
    rw [if_pos hne] at h
    cases hf : Taxonomy.DATA_SOURCES.find? (fun q => q.1 == pyLower s) with
    | none => rw [hf] at h; cases h
    | some q =>
      rw [hf] at h
      have : q.2.platform = x := Option.some.inj h
      rw [← this]
      exact data_sources_platform_valid q (List.mem_of_find?_eq_some hf)

theorem platformFromPatterns_mem {pats : Option (List String)} {x : String}
    (h : Taxonomy.platformFromPatterns pats = some x) :
    x ∈ Taxonomy.PLATFORMS.map Prod.fst := by
  unfold Taxonomy.platformFromPatterns at h
  rcases List.exists_of_findSome?_eq_some h with ⟨pat, _, hpat⟩
  rcases List.exists_of_findSome?_eq_some hpat with ⟨kv, hkv, hkvx⟩
  split_ifs at hkvx
  have : kv.2 = x := Option.some.inj hkvx
  rw [← this]
  exact platform_keyword_map_values kv hkv

theorem platformFromScores_mem {st : String} {x : String}
    (h : Taxonomy.platformFromScores st = some x) :
    x ∈ Taxonomy.PLATFORMS.map Prod.fst := by
  unfold Taxonomy.platformFromScores at h
  have := pyArgmax_mem h
  rcases List.mem_map.mp this with ⟨q, hq, hqx⟩
  have h5 := keywordScores_fst hq
  rw [hqx] at h5
  simpa using h5

theorem detect_platform_mem (st : String) (product service : Option String)
    (pats : Option (List String)) :
    Taxonomy.detect_platform st product service pats ∈ Taxonomy.PLATFORMS.map Prod.fst ∨
    Taxonomy.detect_platform st product service pats = "" := by
  unfold Taxonomy.detect_platform
  apply getD_empty_cases
  intro x hall
  rcases option_orElse_eq_some hall with h12 | h34
  · rcases option_orElse_eq_some h12 with h1 | h2
    · exact platformFromProduct_mem h1
    · exact platformFromService_mem h2
  · rcases option_orElse_eq_some h34 with h3 | h4
    · exact platformFromPatterns_mem h3
    · exact platformFromScores_mem h4

theorem categoryFromHint_mem {category : Option String} {x : String}
    (h : Taxonomy.categoryFromHint category = some x) :
    x ∈ Taxonomy.EVENT_CATEGORIES.map Prod.fst := by
  cases category with
  | none => cases h
  | some c =>
    unfold Taxonomy.categoryFromHint at h
    dsimp only [] at h
    by_cases hne : c ≠ ""
    case neg => rw [if_neg hne] at h; cases h
    rw [if_pos hne] at h
    cases hdl : Taxonomy.dlookup Taxonomy.EVENT_CATEGORY_KEYWORD_MAP
        (pyReplace (pyReplace (pyLower c) "-" "_") " " "_") with
    | some cat =>
      rw [hdl] at h
      dsimp only [] at h
      have hx : cat = x := Option.some.inj h
      rcases dlookup_mem hdl with ⟨q, hq, hqv⟩
      rw [← hx, ← hqv]
      exact event_category_keyword_map_values q hq
    | none =>
      rw [hdl] at h
      dsimp only [] at h
      split_ifs at h with hfind
      cases hf2 : Taxonomy.EVENT_CATEGORIES.find? (fun q =>
          q.1 == pyReplace (pyReplace (pyLower c) "-" "_") " " "_") with
      | none => rw [hf2] at hfind; cases hfind
      | some q =>
        have hqm := List.mem_of_find?_eq_some hf2
        have heq := List.find?_some hf2
        rw [beq_iff_eq] at heq
        have hqx : q.1 = x := by rw [heq]; exact Option.some.inj h
        rw [← hqx]
        exact List.mem_map.mpr ⟨q, hqm, rfl⟩

theorem categoryFromScores_mem {st : String} {x : String}
    (h : Taxonomy.categoryFromScores st = some x) :
    x ∈ Taxonomy.EVENT_CATEGORIES.map Prod.fst := by
  unfold Taxonomy.categoryFromScores at h
  have := pyArgmax_mem h
  rcases List.mem_map.mp this with ⟨q, hq, hqx⟩
  have h5 := keywordScores_fst hq
  rw [hqx] at h5
  simpa using h5

theorem detect_event_category_mem (st : String) (category : Option String) :
    Taxonomy.detect_event_category st category ∈ Taxonomy.EVENT_CATEGORIES.map Prod.fst ∨
    Taxonomy.detect_event_category st category = "" := by
  unfold Taxonomy.detect_event_category
  apply getD_empty_cases
  intro x hall
  rcases option_orElse_eq_some hall with h1 | h2
  · exact categoryFromHint_mem h1
  · exact categoryFromScores_mem h2

theorem dataSourceFromService_mem {service : Option String} {x : String}
    (h : Taxonomy.dataSourceFromService service = some x) :
    x ∈ Taxonomy.DATA_SOURCES.map Prod.fst := by
  cases service with
  | none => cases h
  | some s =>
    unfold Taxonomy.dataSourceFromService at h
    dsimp only [] at h
    by_cases hne : s ≠ ""
    case neg => rw [if_neg hne] at h; cases h
    rw [if_pos hne] at h
    split_ifs at h with hfind
    cases hf : Taxonomy.DATA_SOURCES.find? (fun q => q.1 == pyLower s) with
    | none => rw [hf] at hfind; cases hfind
    | some q =>
      have hqm := List.mem_of_find?_eq_some hf
      have heq := List.find?_some hf
      rw [beq_iff_eq] at heq
      have hqx : q.1 = x := by rw [heq]; exact Option.some.inj h
      rw [← hqx]
      exact List.mem_map.mpr ⟨q, hqm, rfl⟩

theorem dataSourceFromPatterns_mem {pats : Option (List String)} {x : String}
    (h : Taxonomy.dataSourceFromPatterns pats = some x) :
    x ∈ Taxonomy.DATA_SOURCES.map Prod.fst := by
  unfold Taxonomy.dataSourceFromPatterns at h
  rcases List.exists_of_findSome?_eq_some h with ⟨pat, _, hpat⟩
  rcases List.exists_of_findSome?_eq_some hpat with ⟨kv, hkv, hkvx⟩
  split_ifs at hkvx
  have : kv.1 = x := Option.some.inj hkvx
  rw [← this]
  exact List.mem_map.mpr ⟨kv, hkv, rfl⟩

theorem dataSourceFromText_mem {st : String} {x : String}
    (h : Taxonomy.dataSourceFromText st = some x) :
    x ∈ Taxonomy.DATA_SOURCES.map Prod.fst := by
  unfold Taxonomy.dataSourceFromText at h
  rcases List.exists_of_findSome?_eq_some h with ⟨kv, hkv, hkvx⟩
  split_ifs at hkvx
  have : kv.1 = x := Option.some.inj hkvx
  rw [← this]
  exact List.mem_map.mpr ⟨kv, hkv, rfl⟩

theorem detect_data_source_mem (st : String) (service : Option String)
    (pats : Option (List String)) :
    Taxonomy.detect_data_source st service pats ∈ Taxonomy.DATA_SOURCES.map Prod.fst ∨
    Taxonomy.detect_data_source st service pats = "" := by
  unfold Taxonomy.detect_data_source
  apply getD_empty_cases
  intro x hall
  rcases option_orElse_eq_some hall with h12 | h3
  · rcases option_orElse_eq_some h12 with h1 | h2
    · exact dataSourceFromService_mem h1
    · exact dataSourceFromPatterns_mem h2
  · exact dataSourceFromText_mem h3

/-- C6: `standardize_log_sources` is total (a Lean function) and each
component of its triple is a key of the corresponding taxonomy table or
the empty string, for every input including all-empty hints. -/
theorem C6_taxonomy_totality (log_sources : List String)
    (product category service : Option String) (index_patterns : Option (List String)) :
    ((Taxonomy.standardize_log_sources log_sources product category service
        index_patterns).1 ∈ Taxonomy.PLATFORMS.map Prod.fst ∨
      (Taxonomy.standardize_log_sources log_sources product category service
        index_patterns).1 = "") ∧
    ((Taxonomy.standardize_log_sources log_sources product category service
        index_patterns).2.1 ∈ Taxonomy.EVENT_CATEGORIES.map Prod.fst ∨
      (Taxonomy.standardize_log_sources log_sources product category service
        index_patterns).2.1 = "") ∧
    ((Taxonomy.standardize_log_sources log_sources product category service
        index_patterns).2.2 ∈ Taxonomy.DATA_SOURCES.map Prod.fst ∨
      (Taxonomy.standardize_log_sources log_sources product category service
        index_patterns).2.2 = "") := by
  refine ⟨?_, ?_, ?_⟩
  · exact detect_platform_mem _ product service index_patterns
  · exact detect_event_category_mem _ category
  · exact detect_data_source_mem _ service index_patterns

/-! ## C7 — deterministic, UUID-shaped identifiers -/

theorem toHexN_length : ∀ (k n : Nat), (SHA256.toHexN n k).length = k
  | 0, _ => rfl
  | k + 1, n => by
    rw [SHA256.toHexN, List.length_append, toHexN_length k (n / 16)]
    rfl

theorem toHexN_mem : ∀ (k n : Nat) (c : Char),
    c ∈ SHA256.toHexN n k → c ∈ SHA256.hexDigitChars
  | 0, _, _, h => absurd h (List.not_mem_nil _)
  | k + 1, n, c, h => by
    rw [SHA256.toHexN] at h
    rcases List.mem_append.mp h with h' | h'
    · exact toHexN_mem k (n / 16) c h'
    · rw [List.mem_singleton.mp h']
      have hlt : n % 16 < SHA256.hexDigitChars.length := Nat.mod_lt _ (by norm_num)
      rw [List.getD_eq_getElem _ _ hlt]
      exact List.getElem_mem _

theorem sha256HexChars_length (msg : List Nat) :
    (SHA256.sha256HexChars msg).length = 64 := by
  unfold SHA256.sha256HexChars
  simp [List.length_append, toHexN_length]

theorem sha256HexChars_hex (msg : List Nat) :
    ∀ c ∈ SHA256.sha256HexChars msg, c ∈ SHA256.hexDigitChars := by
  unfold SHA256.sha256HexChars
  intro c hc
  simp only [List.mem_append] at hc
  rcases hc with ((((((h | h) | h) | h) | h) | h) | h) | h <;> exact toHexN_mem _ _ _ h

/-- C7: `generate_id` is a pure deterministic function of
`(source, file_path)`; its value is obtained by slicing the SHA-256 hex
digest of the hash input `source ++ ":" ++ file_path` into the 8-4-4-4-12
dash-joined UUID shape, every slice consisting of hex digits; and the hash
input determines the path (any path change changes the hash input). -/
theorem C7_generate_id_deterministic (s p s' p' : String) :
    (s = s' → p = p' → Normalizer.generate_id s p = Normalizer.generate_id s' p') ∧
    (Normalizer.generate_id s p =
      (let h := SHA256.sha256HexChars (SHA256.utf8Bytes (Normalizer.hashInput s p))
       String.mk (h.take 8) ++ "-" ++ String.mk ((h.drop 8).take 4) ++ "-" ++
       String.mk ((h.drop 12).take 4) ++ "-" ++ String.mk ((h.drop 16).take 4) ++ "-" ++
       String.mk ((h.drop 20).take 12))) ∧
    (∃ a b c d e : List Char,
      Normalizer.generate_id s p =
        String.mk a ++ "-" ++ String.mk b ++ "-" ++ String.mk c ++ "-" ++
        String.mk d ++ "-" ++ String.mk e ∧
      a.length = 8 ∧ b.length = 4 ∧ c.length = 4 ∧ d.length = 4 ∧ e.length = 12 ∧
      (∀ ch ∈ a ++ b ++ c ++ d ++ e, ch ∈ SHA256.hexDigitChars)) ∧
    (Normalizer.hashInput s p = Normalizer.hashInput s p' → p = p') := by
  refine ⟨?_, rfl, ?_, ?_⟩
  · intro h1 h2
    rw [h1, h2]
  · refine ⟨(SHA256.sha256HexChars (SHA256.utf8Bytes (Normalizer.hashInput s p))).take 8,
      ((SHA256.sha256HexChars (SHA256.utf8Bytes (Normalizer.hashInput s p))).drop 8).take 4,
      ((SHA256.sha256HexChars (SHA256.utf8Bytes (Normalizer.hashInput s p))).drop 12).take 4,
      ((SHA256.sha256HexChars (SHA256.utf8Bytes (Normalizer.hashInput s p))).drop 16).take 4,
      ((SHA256.sha256HexChars (SHA256.utf8Bytes (Normalizer.hashInput s p))).drop 20).take 12,
      rfl, ?_, ?_, ?_, ?_, ?_, ?_⟩
    · rw [List.length_take, sha256HexChars_length]; decide
    · rw [List.length_take, List.length_drop, sha256HexChars_length]; decide
    · rw [List.length_take, List.length_drop, sha256HexChars_length]; decide
    · rw [List.length_take, List.length_drop, sha256HexChars_length]; decide
    · rw [List.length_take, List.length_drop, sha256HexChars_length]; decide
    · intro ch hch
      simp only [List.mem_append] at hch
      rcases hch with (((h | h) | h) | h) | h
      · exact sha256HexChars_hex _ ch (List.mem_of_mem_take h)
      · exact sha256HexChars_hex _ ch (List.mem_of_mem_drop (List.mem_of_mem_take h))
      · exact sha256HexChars_hex _ ch (List.mem_of_mem_drop (List.mem_of_mem_take h))
      · exact sha256HexChars_hex _ ch (List.mem_of_mem_drop (List.mem_of_mem_take h))
      · exact sha256HexChars_hex _ ch (List.mem_of_mem_drop (List.mem_of_mem_take h))
  · intro h
    unfold Normalizer.hashInput at h
    have hd := congrArg String.data h
    simp only [String.data_append] at hd
    have h2 := List.append_cancel_left hd
    cases p
    cases p'
    exact congrArg String.mk h2

/-- Witness for C7 at concrete inputs, discharging both implications. -/
theorem C7_witness :
    Normalizer.generate_id "sigma" "rules/test.yml" =
      Normalizer.generate_id "sigma" "rules/test.yml" ∧
    ("rules/test.yml" : String) = "rules/test.yml" :=
  ⟨(C7_generate_id_deterministic "sigma" "rules/test.yml" "sigma" "rules/test.yml").1 rfl rfl,
   (C7_generate_id_deterministic "sigma" "rules/test.yml" "sigma" "rules/test.yml").2.2.2 rfl⟩

/-! ## C8 — Splunk severity derivation -/

theorem maxScore_nil : Splunk.maxScore [] = 0 := rfl

theorem riskScores_nonempty_of_maxScore_pos {l : List (Option Int)}
    (h : Splunk.maxScore l > 0) : l.isEmpty = false := by
  cases l with
  | nil => simp [Splunk.maxScore] at h
  | cons a t => rfl

/-- C8: the Splunk severity derivation maps the maximum risk-object score
(when positive) through the 80/60/40 thresholds; otherwise, when both an
impact and a confidence integer are available, it maps their exact average
through the same thresholds; and when neither a positive risk score nor
the impact/confidence pair nor a risk_severity tag is available it yields
"unknown". -/
theorem C8_derive_severity_thresholds (inp : Splunk.SeverityInput) :
    (Splunk.maxScore inp.riskScores > 0 →
      Splunk.derive_severity inp =
        (if Splunk.maxScore inp.riskScores ≥ 80 then "critical"
         else if Splunk.maxScore inp.riskScores ≥ 60 then "high"
         else if Splunk.maxScore inp.riskScores ≥ 40 then "medium"
         else "low")) ∧
    (∀ i c : Int, Splunk.maxScore inp.riskScores ≤ 0 →
      inp.impact = some i → inp.confidence = some c →
      Splunk.derive_severity inp =
        (if ((i : ℚ) + (c : ℚ)) / 2 ≥ 80 then "critical"
         else if ((i : ℚ) + (c : ℚ)) / 2 ≥ 60 then "high"
         else if ((i : ℚ) + (c : ℚ)) / 2 ≥ 40 then "medium"
         else "low")) ∧
    (Splunk.maxScore inp.riskScores ≤ 0 →
      (inp.impact = none ∨ inp.confidence = none) →
      inp.riskSeverity = none →
      Splunk.derive_severity inp = "unknown") := by
  refine ⟨?_, ?_, ?_⟩
  · intro hm
    have he := riskScores_nonempty_of_maxScore_pos hm
    unfold Splunk.derive_severity
    rw [he]
    simp only [Bool.false_eq_true, if_false]
    rw [if_pos hm]
  · intro i c hm hi hc
    have hnot : ¬ Splunk.maxScore inp.riskScores > 0 := by omega
    unfold Splunk.derive_severity
    rw [hi, hc]
    dsimp only []
    by_cases he : inp.riskScores.isEmpty
    · rw [if_pos he]
    · rw [if_neg he, if_neg hnot]
  · intro hm hio hrs
    have hnot : ¬ Splunk.maxScore inp.riskScores > 0 := by omega
    unfold Splunk.derive_severity
    rw [hrs]
    have hmatch :
        (match inp.impact, inp.confidence with
          | some i, some c =>
            let avg : ℚ := (i + c : ℚ) / 2
            if avg ≥ 80 then "critical"
            else if avg ≥ 60 then "high"
            else if avg ≥ 40 then "medium"
            else "low"
          | _, _ =>
            match (none : Option String) with
            | some rs => pyLower rs
            | none => "unknown") = "unknown" := by
      rcases hio with h | h
      · rw [h]
      · rw [h]
        cases hi : inp.impact <;> rfl
    rw [hmatch]
    by_cases he : inp.riskScores.isEmpty
    · rw [if_pos he]
    · rw [if_neg he, if_neg hnot]

/-- Witness for C8: the three regimes at concrete inputs. -/
theorem C8_witness :
    Splunk.derive_severity ⟨[some 90, some 20], none, none, none⟩ = "critical" ∧
    Splunk.derive_severity ⟨[], some 50, some 75, none⟩ = "high" ∧
    Splunk.derive_severity ⟨[some 0], none, some 10, none⟩ = "unknown" := by
  refine ⟨?_, ?_, ?_⟩
  · rw [(C8_derive_severity_thresholds ⟨[some 90, some 20], none, none, none⟩).1 (by decide)]
    decide
  · rw [(C8_derive_severity_thresholds ⟨[], some 50, some 75, none⟩).2.1 50 75
      (by decide) rfl rfl]
    norm_num
  · exact (C8_derive_severity_thresholds ⟨[some 0], none, some 10, none⟩).2.2
      (by decide) (Or.inl rfl) rfl

/-! ## C9 — Sigma scenario -/

/-- C9: a Sigma file with title "Suspicious PowerShell", level high, tags
`[attack.execution, attack.t1059.001]` and a non-empty detection body
parses successfully, and its normalization has severity "high",
mitre_techniques `["T1059.001"]`, mitre_tactics `["TA0002"]` and language
"sigma". -/
theorem C9_sigma_scenario :
    ((Sigma.parse "rules/windows/powershell.yml" "raw-content"
        (some sigmaScenarioDoc)).map
      (fun pr =>
        ((Sigma.normalize "https://github.com/SigmaHQ/sigma" pr).severity,
         (Sigma.normalize "https://github.com/SigmaHQ/sigma" pr).mitre_techniques,
         (Sigma.normalize "https://github.com/SigmaHQ/sigma" pr).mitre_tactics,
         (Sigma.normalize "https://github.com/SigmaHQ/sigma" pr).language))) =
      some ("high", ["T1059.001"], ["TA0002"], "sigma") := by
  decide

/-! ## C3 — filtered files are skipped, but only after their content is read -/

/-- C3 counterexample: for a readable file failing `can_parse`, the
orchestrator's per-file trace reads the content (`readContent`) before
recording the skip — the file does not reach a terminal state before the
Read stage as the claim requires. -/
theorem C3_counterexample :
    jobFiltered.canParse = false ∧
    (Ingest.processFile dbAlwaysOk {} jobFiltered).2 =
      [Ingest.Event.discovered "docs/readme.md",
       Ingest.Event.readAttempt "docs/readme.md",
       Ingest.Event.readContent "docs/readme.md",
       Ingest.Event.skippedByFilter "docs/readme.md"] ∧
    Ingest.Event.readContent "docs/readme.md" ∈ (Ingest.processFile dbAlwaysOk {} jobFiltered).2 ∧
    (Ingest.processFile dbAlwaysOk {} jobFiltered).1.stats.skipped_by_filter = 1 := by
  refine ⟨rfl, rfl, by decide, rfl⟩

/-- C3 amended: a discovered file that fails `can_parse` is terminal before
the Parse stage — it is counted as skipped-by-filter when its content was
read successfully, and recorded as a READ error when the content was
unavailable — but its content is read (or the read is attempted) before
the filter is applied, not after. -/
theorem C3_filtered_files_skipped (db : Ingest.Db) (st : Ingest.RunState)
    (job : Ingest.FileJob) (hcp : job.canParse = false) :
    (job.readResult.isSome = true →
      (Ingest.processFile db st job).1.stats.skipped_by_filter
        = st.stats.skipped_by_filter + 1 ∧
      (Ingest.processFile db st job).1.stats.discovered = st.stats.discovered + 1 ∧
      (Ingest.processFile db st job).1.stats.errors = st.stats.errors ∧
      (Ingest.processFile db st job).1.buffer = st.buffer ∧
      (Ingest.processFile db st job).2 =
        [Ingest.Event.discovered job.path, Ingest.Event.readAttempt job.path,
         Ingest.Event.readContent job.path, Ingest.Event.skippedByFilter job.path] ∧
      Ingest.Event.parseAttempt job.path ∉ (Ingest.processFile db st job).2) ∧
    (job.readResult = none →
      (Ingest.processFile db st job).1.stats.errors = st.stats.errors ++
        [⟨job.path, Ingest.Stage.read, Ingest.Severity.error,
          "Failed to read file content"⟩] ∧
      (Ingest.processFile db st job).1.stats.skipped_by_filter
        = st.stats.skipped_by_filter) := by
  obtain ⟨path, rr, cp, po⟩ := job
  dsimp only [] at hcp
  subst hcp
  constructor
  · intro hrs
    cases rr with
    | none => cases hrs
    | some content =>
      refine ⟨rfl, rfl, rfl, rfl, rfl, ?_⟩
      intro hmem
      simp [Ingest.processFile] at hmem
  · intro hrr
    subst hrr
    exact ⟨rfl, rfl⟩

/-- Witness for C3's amended theorem at a concrete readable filtered
file. -/
theorem C3_witness :
    (Ingest.processFile dbAlwaysOk {} jobFiltered).1.stats.skipped_by_filter =
      ({} : Ingest.RunState).stats.skipped_by_filter + 1 :=
  ((C3_filtered_files_skipped dbAlwaysOk {} jobFiltered rfl).1 rfl).1

/-! ## C10 — run-statistics invariants -/

theorem stageCount_add_error (s : Ingest.Stats) (p : String) (g' : Ingest.Stage)
    (msg : String) (sev : Ingest.Severity) (g : Ingest.Stage) :
    (s.add_error p g' msg sev).stageCount g =
      s.stageCount g + (if g' = g then 1 else 0) := by
  unfold Ingest.Stats.add_error Ingest.Stats.stageCount
  dsimp only []
  rw [List.filter_append, List.length_append]
  congr 1
  by_cases h : g' = g
  · simp [h]
  · simp [h]

theorem add_error_counters (s : Ingest.Stats) (p : String) (g : Ingest.Stage)
    (msg : String) (sev : Ingest.Severity) :
    (s.add_error p g msg sev).stored = s.stored ∧
    (s.add_error p g msg sev).normalized = s.normalized ∧
    (s.add_error p g msg sev).parsed = s.parsed ∧
    (s.add_error p g msg sev).discovered = s.discovered ∧
    (s.add_error p g msg sev).skipped_by_filter = s.skipped_by_filter :=
  ⟨rfl, rfl, rfl, rfl, rfl⟩

theorem store_foldl_errors_stage (db : Ingest.Db) :
    ∀ (rules : List String) (acc : Nat × List Ingest.ErrRec),
      (∀ e ∈ acc.2, e.stage = Ingest.Stage.store) →
      ∀ e ∈ (rules.foldl
        (fun acc r =>
          if db.singleCommitOk r then (acc.1 + 1, acc.2)
          else (acc.1, acc.2 ++
            [⟨r, Ingest.Stage.store, Ingest.Severity.error, "Individual store failed"⟩]))
        acc).2, e.stage = Ingest.Stage.store
  | [], _, hacc => hacc
  | r :: rules, acc, hacc => by
    rw [List.foldl_cons]
    apply store_foldl_errors_stage db rules
    by_cases hc : db.singleCommitOk r
    · rw [if_pos hc]; exact hacc
    · rw [if_neg hc]
      intro e he
      rcases List.mem_append.mp he with he' | he'
      · exact hacc e he'
      · rw [List.mem_singleton.mp he']

theorem store_rules_safe_errors_stage (db : Ingest.Db) (rules : List String) :
    ∀ e ∈ (Ingest.store_rules_safe db rules).2, e.stage = Ingest.Stage.store := by
  unfold Ingest.store_rules_safe
  split_ifs
  · intro e he; cases he
  · exact store_foldl_errors_stage db rules (0, []) (by intro e he; cases he)

theorem store_foldl_count_le (db : Ingest.Db) :
    ∀ (rules : List String) (acc : Nat × List Ingest.ErrRec),
      (rules.foldl
        (fun acc r =>
          if db.singleCommitOk r then (acc.1 + 1, acc.2)
          else (acc.1, acc.2 ++
            [⟨r, Ingest.Stage.store, Ingest.Severity.error, "Individual store failed"⟩]))
        acc).1 ≤ acc.1 + rules.length
  | [], acc => Nat.le_add_right _ _
  | r :: rules, acc => by
    rw [List.foldl_cons]
    by_cases hc : db.singleCommitOk r
    · rw [if_pos hc]
      have := store_foldl_count_le db rules (acc.1 + 1, acc.2)
      simpa [Nat.add_comm, Nat.add_assoc, Nat.add_left_comm] using this
    · rw [if_neg hc]
      have := store_foldl_count_le db rules
        (acc.1, acc.2 ++ [⟨r, Ingest.Stage.store, Ingest.Severity.error,
          "Individual store failed"⟩])
      calc _ ≤ acc.1 + rules.length := this
        _ ≤ acc.1 + (rules.length + 1) := by omega
        _ = acc.1 + (r :: rules).length := by simp

theorem store_rules_safe_count_le (db : Ingest.Db) (rules : List String) :
    (Ingest.store_rules_safe db rules).1 ≤ rules.length := by
  unfold Ingest.store_rules_safe
  split_ifs
  · exact Nat.le_refl _
  · have := store_foldl_count_le db rules (0, [])
    simpa using this

theorem filter_stage_nil {l : List Ingest.ErrRec} {g : Ingest.Stage}
    (hall : ∀ e ∈ l, e.stage = Ingest.Stage.store) (hg : g ≠ Ingest.Stage.store) :
    (l.filter (fun e => e.stage = g)).length = 0 := by
  rw [List.length_eq_zero, List.filter_eq_nil_iff]
  intro e he
  rw [decide_eq_true_eq, hall e he]
  intro h
  exact hg h.symm

theorem flushIfFull_runInvariant (db : Ingest.Db) (st : Ingest.RunState)
    (h : Ingest.runInvariant st) : Ingest.runInvariant (Ingest.flushIfFull db st) := by
  obtain ⟨h1, h2, h3, h4⟩ := h
  unfold Ingest.flushIfFull
  split_ifs with hb
  · have hle := store_rules_safe_count_le db st.buffer
    have hall := store_rules_safe_errors_stage db st.buffer
    refine ⟨?_, h2, h3, ?_⟩
    · dsimp only [Ingest.runInvariant]
      simp only [List.length_nil, Nat.add_zero]
      omega
    · show st.stats.parsed + st.stats.skipped_by_filter + _ ≤ st.stats.discovered
      have hr : ∀ g : Ingest.Stage, g ≠ Ingest.Stage.store →
          (({ st.stats with
              stored := st.stats.stored + (Ingest.store_rules_safe db st.buffer).1
              errors := st.stats.errors ++
                (Ingest.store_rules_safe db st.buffer).2 } : Ingest.Stats).stageCount g)
            = st.stats.stageCount g := by
        intro g hg
        unfold Ingest.Stats.stageCount
        dsimp only []
        rw [List.filter_append, List.length_append, filter_stage_nil hall hg,
          Nat.add_zero]
      rw [hr Ingest.Stage.read (by simp), hr Ingest.Stage.parse (by simp)]
      exact h4
  · exact ⟨h1, h2, h3, h4⟩

theorem processFile_runInvariant (db : Ingest.Db) (st : Ingest.RunState)
    (job : Ingest.FileJob) (h : Ingest.runInvariant st) :
    Ingest.runInvariant (Ingest.processFile db st job).1 := by
  obtain ⟨path, rr, cp, po⟩ := job
  obtain ⟨h1, h2, h3, h4⟩ := h
  cases rr with
  | none =>
    have hst : (Ingest.processFile db st ⟨path, none, cp, po⟩).1 =
        { st with
          stats :=
            ({ st.stats with
                discovered := st.stats.discovered + 1 }).add_error path
              Ingest.Stage.read "Failed to read file content"
              Ingest.Severity.error } := rfl
    rw [hst]
    refine ⟨h1, h2, Nat.le_succ_of_le h3, ?_⟩
    show _ + _ + (Ingest.Stats.stageCount _ _ + Ingest.Stats.stageCount _ _) ≤ _
    rw [stageCount_add_error, stageCount_add_error]
    show st.stats.parsed + st.stats.skipped_by_filter +
      ((st.stats.stageCount Ingest.Stage.read + 1) +
       (st.stats.stageCount Ingest.Stage.parse + 0)) ≤ st.stats.discovered + 1
    omega
  | some content =>
    cases cp with
    | false =>
      cases po <;>
      · refine ⟨h1, h2, Nat.le_succ_of_le h3, ?_⟩
        show st.stats.parsed + (st.stats.skipped_by_filter + 1) +
          (st.stats.stageCount Ingest.Stage.read +
           st.stats.stageCount Ingest.Stage.parse) ≤ st.stats.discovered + 1
        omega
    | true =>
      cases po with
      | retNone =>
        have hst : (Ingest.processFile db st
            ⟨path, some content, true, Ingest.ParseOutcome.retNone⟩).1 =
            { st with
              stats :=
                ({ st.stats with
                    discovered := st.stats.discovered + 1 }).add_error path
                  Ingest.Stage.parse
                  "Parser returned None (missing required fields or invalid format)"
                  Ingest.Severity.warning } := rfl
        rw [hst]
        refine ⟨h1, h2, Nat.le_succ_of_le h3, ?_⟩
        show _ + _ + (Ingest.Stats.stageCount _ _ + Ingest.Stats.stageCount _ _) ≤ _
        rw [stageCount_add_error, stageCount_add_error]
        show st.stats.parsed + st.stats.skipped_by_filter +
          ((st.stats.stageCount Ingest.Stage.read + 0) +
           (st.stats.stageCount Ingest.Stage.parse + 1)) ≤ st.stats.discovered + 1
        omega
      | exc =>
        have hst : (Ingest.processFile db st
            ⟨path, some content, true, Ingest.ParseOutcome.exc⟩).1 =
            { st with
              stats :=
                ({ st.stats with
                    discovered := st.stats.discovered + 1 }).add_error path
                  Ingest.Stage.parse "Parse exception"
                  Ingest.Severity.error } := rfl
        rw [hst]
        refine ⟨h1, h2, Nat.le_succ_of_le h3, ?_⟩
        show _ + _ + (Ingest.Stats.stageCount _ _ + Ingest.Stats.stageCount _ _) ≤ _
        rw [stageCount_add_error, stageCount_add_error]
        show st.stats.parsed + st.stats.skipped_by_filter +
          ((st.stats.stageCount Ingest.Stage.read + 0) +
           (st.stats.stageCount Ingest.Stage.parse + 1)) ≤ st.stats.discovered + 1
        omega
      | ok n =>
        cases n with
        | exc =>
          have hst : (Ingest.processFile db st
              ⟨path, some content, true,
                Ingest.ParseOutcome.ok Ingest.NormOutcome.exc⟩).1 =
              { st with
                stats :=
                  ({ st.stats with
                      discovered := st.stats.discovered + 1
                      parsed := st.stats.parsed + 1 }).add_error path
                    Ingest.Stage.normalize "Normalization exception"
                    Ingest.Severity.error } := rfl
          rw [hst]
          refine ⟨h1, Nat.le_succ_of_le h2, Nat.succ_le_succ h3, ?_⟩
          show _ + _ + (Ingest.Stats.stageCount _ _ + Ingest.Stats.stageCount _ _) ≤ _
          rw [stageCount_add_error, stageCount_add_error]
          show st.stats.parsed + 1 + st.stats.skipped_by_filter +
            ((st.stats.stageCount Ingest.Stage.read + 0) +
             (st.stats.stageCount Ingest.Stage.parse + 0)) ≤ st.stats.discovered + 1
          omega
        | ok rid =>
          have hst : (Ingest.processFile db st
              ⟨path, some content, true,
                Ingest.ParseOutcome.ok (Ingest.NormOutcome.ok rid)⟩).1 =
              Ingest.flushIfFull db
                { stats :=
                    { st.stats with
                      discovered := st.stats.discovered + 1
                      parsed := st.stats.parsed + 1
                      normalized := st.stats.normalized + 1 }
                  buffer := st.buffer ++ [rid] } := rfl
          rw [hst]
          apply flushIfFull_runInvariant
          refine ⟨?_, Nat.succ_le_succ h2, Nat.succ_le_succ h3, ?_⟩
          · show st.stats.stored + (st.buffer ++ [rid]).length ≤ st.stats.normalized + 1
            rw [List.length_append]
            simp only [List.length_singleton]
            omega
          · show st.stats.parsed + 1 + st.stats.skipped_by_filter +
              (st.stats.stageCount Ingest.Stage.read +
               st.stats.stageCount Ingest.Stage.parse) ≤ st.stats.discovered + 1
            omega

theorem runFiles_runInvariant (db : Ingest.Db) :
    ∀ (jobs : List Ingest.FileJob) (st : Ingest.RunState),
      Ingest.runInvariant st → Ingest.runInvariant (Ingest.runFiles db st jobs)
  | [], _, h => h
  | j :: jobs, st, h => by
    unfold Ingest.runFiles
    rw [List.foldl_cons]
    exact runFiles_runInvariant db jobs _ (processFile_runInvariant db st j h)

theorem runInvariant_init : Ingest.runInvariant ({} : Ingest.RunState) :=
  ⟨Nat.le_refl 0, Nat.le_refl 0, Nat.le_refl 0, Nat.le_refl 0⟩

/-- C10: at every point of a run (after any prefix of the discovered
files) and in the final reported statistics, the counters satisfy
`stored ≤ normalized ≤ parsed ≤ discovered` and
`parsed + skipped_by_filter + (READ errors + PARSE errors) ≤ discovered`. -/
theorem C10_counter_invariants (db : Ingest.Db) (jobs : List Ingest.FileJob) (n : Nat) :
    Ingest.statsInvariant (Ingest.runFiles db {} (jobs.take n)).stats ∧
    Ingest.statsInvariant (Ingest.ingest_repository db jobs) := by
  constructor
  · have h := runFiles_runInvariant db (jobs.take n) {} runInvariant_init
    obtain ⟨h1, h2, h3, h4⟩ := h
    exact ⟨Nat.le_trans (Nat.le_add_right _ _) h1, h2, h3, h4⟩
  · have h := runFiles_runInvariant db jobs {} runInvariant_init
    obtain ⟨h1, h2, h3, h4⟩ := h
    unfold Ingest.ingest_repository
    dsimp only []
    split_ifs with hb
    · exact ⟨Nat.le_trans (Nat.le_add_right _ _) h1, h2, h3, h4⟩
    · have hle := store_rules_safe_count_le db (Ingest.runFiles db {} jobs).buffer
      have hall := store_rules_safe_errors_stage db (Ingest.runFiles db {} jobs).buffer
      refine ⟨by dsimp only []; omega, h2, h3, ?_⟩
      show _ + _ + _ ≤ _
      have hr : ∀ g : Ingest.Stage, g ≠ Ingest.Stage.store →
          (({ (Ingest.runFiles db {} jobs).stats with
              stored := (Ingest.runFiles db {} jobs).stats.stored +
                (Ingest.store_rules_safe db (Ingest.runFiles db {} jobs).buffer).1
              errors := (Ingest.runFiles db {} jobs).stats.errors ++
                (Ingest.store_rules_safe db (Ingest.runFiles db {} jobs).buffer).2 } :
            Ingest.Stats).stageCount g)
            = (Ingest.runFiles db {} jobs).stats.stageCount g := by
        intro g hg
        unfold Ingest.Stats.stageCount
        dsimp only []
        rw [List.filter_append, List.length_append, filter_stage_nil hall hg,
          Nat.add_zero]
      rw [hr Ingest.Stage.read (by simp), hr Ingest.Stage.parse (by simp)]
      exact h4

/-! ## C4 — error containment -/

theorem store_rules_safe_allOk (db : Ingest.Db) (hdb : ∀ l, db.batchCommitOk l = true)
    (rules : List String) : Ingest.store_rules_safe db rules = (rules.length, []) := by
  unfold Ingest.store_rules_safe
  rw [if_pos (hdb rules)]

theorem flushIfFull_allOk (db : Ingest.Db) (hdb : ∀ l, db.batchCommitOk l = true)
    (stt : Ingest.RunState) :
    (Ingest.flushIfFull db stt).stats.discovered = stt.stats.discovered ∧
    (Ingest.flushIfFull db stt).stats.stageCount Ingest.Stage.parse =
      stt.stats.stageCount Ingest.Stage.parse ∧
    (Ingest.flushIfFull db stt).stats.stored + (Ingest.flushIfFull db stt).buffer.length =
      stt.stats.stored + stt.buffer.length := by
  unfold Ingest.flushIfFull
  split_ifs with hb
  · rw [store_rules_safe_allOk db hdb]
    refine ⟨rfl, ?_, ?_⟩
    · show ((stt.stats.errors ++ []).filter
        (fun (e : Ingest.ErrRec) => e.stage = Ingest.Stage.parse)).length
        = stt.stats.stageCount Ingest.Stage.parse
      rw [List.append_nil]
      rfl
    · show stt.stats.stored + stt.buffer.length + List.length [] =
        stt.stats.stored + stt.buffer.length
      simp
  · exact ⟨rfl, rfl, rfl⟩

/-- C4: over a corpus of N files that all pass the filter and read
successfully, with exactly K failing to parse (parser returns `None` or
raises) and the remaining N−K normalizing, and with a store layer whose
batch commits succeed, the run reports `discovered = N`, exactly K
recorded PARSE-stage errors, and `stored = N − K`. -/
theorem C4_error_containment (db : Ingest.Db) (jobs : List Ingest.FileJob)
    (hdb : ∀ l, db.batchCommitOk l = true)
    (hjobs : ∀ j ∈ jobs, j.readResult.isSome = true ∧ j.canParse = true ∧
      (j.parseOutcome = Ingest.ParseOutcome.retNone ∨
       j.parseOutcome = Ingest.ParseOutcome.exc ∨
       ∃ r, j.parseOutcome = Ingest.ParseOutcome.ok (Ingest.NormOutcome.ok r))) :
    (Ingest.ingest_repository db jobs).discovered = jobs.length ∧
    (Ingest.ingest_repository db jobs).stageCount Ingest.Stage.parse =
      jobs.countP Ingest.FileJob.parseFailed ∧
    (Ingest.ingest_repository db jobs).stored =
      jobs.length - jobs.countP Ingest.FileJob.parseFailed := by
  have key : ∀ (js : List Ingest.FileJob) (st : Ingest.RunState),
      (∀ j ∈ js, j.readResult.isSome = true ∧ j.canParse = true ∧
        (j.parseOutcome = Ingest.ParseOutcome.retNone ∨
         j.parseOutcome = Ingest.ParseOutcome.exc ∨
         ∃ r, j.parseOutcome = Ingest.ParseOutcome.ok (Ingest.NormOutcome.ok r))) →
      (Ingest.runFiles db st js).stats.discovered = st.stats.discovered + js.length ∧
      (Ingest.runFiles db st js).stats.stageCount Ingest.Stage.parse =
        st.stats.stageCount Ingest.Stage.parse + js.countP Ingest.FileJob.parseFailed ∧
      (Ingest.runFiles db st js).stats.stored + (Ingest.runFiles db st js).buffer.length =
        st.stats.stored + st.buffer.length + js.countP Ingest.FileJob.pipelineOk := by
    intro js
    induction js with
    | nil => intro st _; exact ⟨by simp [Ingest.runFiles], by simp [Ingest.runFiles],
        by simp [Ingest.runFiles]⟩
    | cons j js ih =>
      intro st hall
      obtain ⟨hrs, hcp, hpo⟩ := hall j (List.mem_cons_self j js)
      obtain ⟨path, rr, cp, po⟩ := j
      cases rr with
      | none => cases hrs
      | some content =>
        dsimp only [] at hcp
        subst hcp
        have hstep : Ingest.runFiles db st
            (⟨path, some content, true, po⟩ :: js) =
            Ingest.runFiles db
              (Ingest.processFile db st ⟨path, some content, true, po⟩).1 js := rfl
        rw [hstep]
        have ihr := ih (Ingest.processFile db st ⟨path, some content, true, po⟩).1
          (fun j' hj' => hall j' (List.mem_cons_of_mem _ hj'))
        rcases hpo with hpo | hpo | ⟨r, hpo⟩ <;> dsimp only [] at hpo <;> subst hpo
        · -- parser returned None
          have hst : (Ingest.processFile db st
              ⟨path, some content, true, Ingest.ParseOutcome.retNone⟩).1 =
              { st with
                stats :=
                  ({ st.stats with
                      discovered := st.stats.discovered + 1 }).add_error path
                    Ingest.Stage.parse
                    "Parser returned None (missing required fields or invalid format)"
                    Ingest.Severity.warning } := rfl
          rw [hst] at ihr
          rw [hst]
          obtain ⟨ih1, ih2, ih3⟩ := ihr
          refine ⟨?_, ?_, ?_⟩
          · rw [ih1, List.length_cons]
            show st.stats.discovered + 1 + js.length = _
            omega
          · rw [ih2, stageCount_add_error, List.countP_cons]
            show st.stats.stageCount Ingest.Stage.parse + 1 + _ =
              st.stats.stageCount Ingest.Stage.parse + (_ + 1)
            omega
          · rw [ih3, List.countP_cons]
            show st.stats.stored + st.buffer.length + _ =
              st.stats.stored + st.buffer.length + (_ + 0)
            omega
        · -- parse exception
          have hst : (Ingest.processFile db st
              ⟨path, some content, true, Ingest.ParseOutcome.exc⟩).1 =
              { st with
                stats :=
                  ({ st.stats with
                      discovered := st.stats.discovered + 1 }).add_error path
                    Ingest.Stage.parse "Parse exception"
                    Ingest.Severity.error } := rfl
          rw [hst] at ihr
          rw [hst]
          obtain ⟨ih1, ih2, ih3⟩ := ihr
          refine ⟨?_, ?_, ?_⟩
          · rw [ih1, List.length_cons]
            show st.stats.discovered + 1 + js.length = _
            omega
          · rw [ih2, stageCount_add_error, List.countP_cons]
            show st.stats.stageCount Ingest.Stage.parse + 1 + _ =
              st.stats.stageCount Ingest.Stage.parse + (_ + 1)
            omega
          · rw [ih3, List.countP_cons]
            show st.stats.stored + st.buffer.length + _ =
              st.stats.stored + st.buffer.length + (_ + 0)
            omega
        · -- parses and normalizes fine
          have hst : (Ingest.processFile db st
              ⟨path, some content, true,
                Ingest.ParseOutcome.ok (Ingest.NormOutcome.ok r)⟩).1 =
              Ingest.flushIfFull db
                { stats :=
                    { st.stats with
                      discovered := st.stats.discovered + 1
                      parsed := st.stats.parsed + 1
                      normalized := st.stats.normalized + 1 }
                  buffer := st.buffer ++ [r] } := rfl
          rw [hst] at ihr
          rw [hst]
          obtain ⟨ih1, ih2, ih3⟩ := ihr
          obtain ⟨hf1, hf2, hf3⟩ := flushIfFull_allOk db hdb
            { stats :=
                { st.stats with
                  discovered := st.stats.discovered + 1
                  parsed := st.stats.parsed + 1
                  normalized := st.stats.normalized + 1 }
              buffer := st.buffer ++ [r] }
          refine ⟨?_, ?_, ?_⟩
          · rw [ih1, hf1, List.length_cons]
            show st.stats.discovered + 1 + js.length = _
            omega
          · rw [ih2, hf2, List.countP_cons]
            show st.stats.stageCount Ingest.Stage.parse + _ =
              st.stats.stageCount Ingest.Stage.parse + (_ + 0)
            omega
          · rw [ih3, hf3, List.countP_cons, List.length_append]
            show st.stats.stored + (st.buffer.length + 1) + _ =
              st.stats.stored + st.buffer.length + (_ + 1)
            omega
  obtain ⟨k1, k2, k3⟩ := key jobs {} hjobs
  have hcount : ∀ (js : List Ingest.FileJob),
      (∀ j ∈ js, j.readResult.isSome = true ∧ j.canParse = true ∧
        (j.parseOutcome = Ingest.ParseOutcome.retNone ∨
         j.parseOutcome = Ingest.ParseOutcome.exc ∨
         ∃ r, j.parseOutcome = Ingest.ParseOutcome.ok (Ingest.NormOutcome.ok r))) →
      js.countP Ingest.FileJob.parseFailed + js.countP Ingest.FileJob.pipelineOk
        = js.length := by
    intro js
    induction js with
    | nil => intro _; rfl
    | cons j js ih =>
      intro hall
      obtain ⟨_, _, hpo⟩ := hall j (List.mem_cons_self j js)
      have ihr := ih (fun j' hj' => hall j' (List.mem_cons_of_mem _ hj'))
      rw [List.countP_cons, List.countP_cons, List.length_cons]
      obtain ⟨path, rr, cp, po⟩ := j
      rcases hpo with hpo | hpo | ⟨r, hpo⟩ <;> dsimp only [] at hpo <;> subst hpo
      · show js.countP Ingest.FileJob.parseFailed + 1 +
          (js.countP Ingest.FileJob.pipelineOk + 0) = js.length + 1
        omega
      · show js.countP Ingest.FileJob.parseFailed + 1 +
          (js.countP Ingest.FileJob.pipelineOk + 0) = js.length + 1
        omega
      · show js.countP Ingest.FileJob.parseFailed + 0 +
          (js.countP Ingest.FileJob.pipelineOk + 1) = js.length + 1
        omega
  have hc := hcount jobs hjobs
  have hz1 : ({} : Ingest.RunState).stats.discovered = 0 := rfl
  have hz2 : ({} : Ingest.RunState).stats.stageCount Ingest.Stage.parse = 0 := rfl
  have hz3 : ({} : Ingest.RunState).stats.stored = 0 := rfl
  have hz4 : ({} : Ingest.RunState).buffer.length = 0 := rfl
  rw [hz1] at k1
  rw [hz2] at k2
  rw [hz3, hz4] at k3
  unfold Ingest.ingest_repository
  dsimp only []
  split_ifs with hb
  · have hblen : (Ingest.runFiles db {} jobs).buffer.length = 0 := by
      rw [List.isEmpty_iff] at hb
      rw [hb]
      rfl
    refine ⟨by omega, by omega, by omega⟩
  · rw [store_rules_safe_allOk db hdb]
    refine ⟨?_, ?_, ?_⟩
    · show (Ingest.runFiles db {} jobs).stats.discovered = jobs.length
      omega
    · show ((( Ingest.runFiles db {} jobs).stats.errors ++ []).filter
        (fun (e : Ingest.ErrRec) => e.stage = Ingest.Stage.parse)).length = _
      rw [List.append_nil]
      show (Ingest.runFiles db {} jobs).stats.stageCount Ingest.Stage.parse = _
      omega
    · show (Ingest.runFiles db {} jobs).stats.stored +
        (Ingest.runFiles db {} jobs).buffer.length = _
      omega

/-- Witness for C4: three files, one malformed, over an always-committing
store. -/
theorem C4_witness :
    (Ingest.ingest_repository dbAlwaysOk jobsOneBad).discovered = 3 ∧
    (Ingest.ingest_repository dbAlwaysOk jobsOneBad).stageCount Ingest.Stage.parse = 1 ∧
    (Ingest.ingest_repository dbAlwaysOk jobsOneBad).stored = 2 := by
  have h := C4_error_containment dbAlwaysOk jobsOneBad (fun _ => rfl)
    (by
      intro j hj
      fin_cases hj
      · exact ⟨rfl, rfl, Or.inr (Or.inr ⟨"id-a", rfl⟩)⟩
      · exact ⟨rfl, rfl, Or.inl rfl⟩
      · exact ⟨rfl, rfl, Or.inr (Or.inr ⟨"id-c", rfl⟩)⟩)
  obtain ⟨h1, h2, h3⟩ := h
  exact ⟨h1, by rw [h2]; rfl, by rw [h3]; rfl⟩

end TDE
